import Mathlib

/-!
Formal model of the `smart_sprinklers` irrigation integration.

Numeric quantities that the Python source keeps as floats are modelled as
rationals, so all arithmetic is exact; wall-clock instants are modelled as
rational minute counts.  External collaborators (sensor reads, actuator
service calls, the host scheduler's parse results) appear as explicit
inputs of the modelled functions.
-/

namespace SmartSprinklers

/-- Python `int(x)` truncation toward zero, on a rational value. -/
def pyInt (q : ℚ) : ℤ := if 0 ≤ q then ⌊q⌋ else -⌊-q⌋

/-! ## Duration calculation (`src/algorithms/watering.py`)

`calculate_watering_duration` first sanitizes each argument to a safe
default, then derives the moisture gap, applies the saturation factor,
rounds up to whole cycles, and finally caps by `max_watering_time`.
The helper definitions below mirror the successive local variables of
the Python function. -/

/-- Sanitization of `current_moisture` (negative readings become 0). -/
def sanitize_current (q : ℚ) : ℚ := if q < 0 then 0 else q

/-- Sanitization of `target_moisture` (non-positive targets become 80). -/
def sanitize_target (q : ℚ) : ℚ := if q ≤ 0 then 80 else q

/-- Sanitization of `absorption_rate` (non-positive rates become 0.5). -/
def sanitize_rate (q : ℚ) : ℚ := if q ≤ 0 then 1/2 else q

/-- Sanitization of `cycle_time` (non-positive cycle times become 15). -/
def sanitize_cycle (q : ℚ) : ℚ := if q ≤ 0 then 15 else q

/-- `moisture_difference = max(0, target_moisture - current_moisture)`. -/
def moisture_difference (cm tm : ℚ) : ℚ := max 0 (tm - cm)

/-- `adjusted_duration = (moisture_difference / absorption_rate) * (1 + 0.5*(current/100))`. -/
def adjusted_duration (cm tm ar : ℚ) : ℚ :=
  (moisture_difference cm tm / ar) * (1 + (1/2) * (cm / 100))

/-- `cycles_needed = ceil(adjusted_duration / cycle_time)`, after flooring the
adjusted duration to at least one full cycle whenever there is any gap. -/
def cycles_needed (cm tm ar ct : ℚ) : ℤ :=
  ⌈(if 0 < moisture_difference cm tm ∧ adjusted_duration cm tm ar < ct
     then ct else adjusted_duration cm tm ar) / ct⌉

/-- The `max_watering_time` cap: `max_cycles = mwt // cycle_time`, raised to 1
when below 1. -/
def max_cycles (mwt ct : ℚ) : ℤ :=
  if ⌊mwt / ct⌋ < 1 then 1 else ⌊mwt / ct⌋

/-- `cycles_needed` clamped from above by `max_cycles`. -/
def capped_cycles (cycles : ℤ) (mwt ct : ℚ) : ℤ :=
  if max_cycles mwt ct < cycles then max_cycles mwt ct else cycles

/-- `calculate_watering_duration` from `src/algorithms/watering.py`.
`max_watering_time = none` models the Python default `None`. -/
def calculate_watering_duration
    (current_moisture target_moisture absorption_rate cycle_time : ℚ)
    (max_watering_time : Option ℚ) : ℚ :=
  let cm := sanitize_current current_moisture
  let tm := sanitize_target target_moisture
  let ar := sanitize_rate absorption_rate
  let ct := sanitize_cycle cycle_time
  if moisture_difference cm tm ≤ 0 ∨ max_watering_time = some 0 then 0
  else
    match max_watering_time with
    | some mwt =>
        if 0 < mwt then (capped_cycles (cycles_needed cm tm ar ct) mwt ct : ℚ) * ct
        else (cycles_needed cm tm ar ct : ℚ) * ct
    | none => (cycles_needed cm tm ar ct : ℚ) * ct

lemma sanitize_current_eq {q : ℚ} (h : 0 ≤ q) : sanitize_current q = q :=
  if_neg (not_lt.mpr h)

lemma sanitize_target_eq {q : ℚ} (h : 0 < q) : sanitize_target q = q :=
  if_neg (not_le.mpr h)

lemma sanitize_rate_eq {q : ℚ} (h : 0 < q) : sanitize_rate q = q :=
  if_neg (not_le.mpr h)

lemma sanitize_cycle_eq {q : ℚ} (h : 0 < q) : sanitize_cycle q = q :=
  if_neg (not_le.mpr h)

lemma sanitize_current_nonneg (q : ℚ) : 0 ≤ sanitize_current q := by
  unfold sanitize_current; split <;> [exact le_refl 0; exact le_of_not_lt (by assumption)]

lemma sanitize_rate_pos (q : ℚ) : 0 < sanitize_rate q := by
  unfold sanitize_rate; split
  · norm_num
  · exact lt_of_not_le (by assumption)

lemma sanitize_cycle_pos (q : ℚ) : 0 < sanitize_cycle q := by
  unfold sanitize_cycle; split
  · norm_num
  · exact lt_of_not_le (by assumption)

lemma int_toNat_cast_q {x : ℤ} (h : 0 ≤ x) : ((x.toNat : ℕ) : ℚ) = (x : ℚ) := by
  exact_mod_cast congrArg (fun n : ℤ => (n : ℚ)) (Int.toNat_of_nonneg h)

lemma cycles_needed_nonneg {cm tm ar ct : ℚ} (hcm : 0 ≤ cm) (har : 0 < ar) (hct : 0 < ct) :
    0 ≤ cycles_needed cm tm ar ct := by
  unfold cycles_needed
  apply Int.ceil_nonneg
  apply div_nonneg _ (le_of_lt hct)
  split
  · exact le_of_lt hct
  · unfold adjusted_duration
    apply mul_nonneg
    · exact div_nonneg (le_max_left 0 _) (le_of_lt har)
    · positivity

lemma one_le_max_cycles (mwt ct : ℚ) : 1 ≤ max_cycles mwt ct := by
  unfold max_cycles
  split
  · exact le_refl 1
  · exact not_lt.mp (by assumption)

lemma max_cycles_eq (mwt ct : ℚ) : max_cycles mwt ct = max 1 ⌊mwt / ct⌋ := by
  unfold max_cycles
  split
  · exact (max_eq_left (le_of_lt (by assumption))).symm
  · exact (max_eq_right (not_lt.mp (by assumption))).symm

lemma capped_cycles_nonneg {cycles : ℤ} (h : 0 ≤ cycles) (mwt ct : ℚ) :
    0 ≤ capped_cycles cycles mwt ct := by
  unfold capped_cycles
  split
  · exact le_trans zero_le_one (one_le_max_cycles mwt ct)
  · exact h

lemma capped_cycles_le (cycles : ℤ) (mwt ct : ℚ) :
    capped_cycles cycles mwt ct ≤ max_cycles mwt ct := by
  unfold capped_cycles
  split
  · exact le_refl _
  · exact not_lt.mp (by assumption)

lemma max_cycles_mul_le {mwt ct : ℚ} (hct : 0 < ct) :
    ((max_cycles mwt ct : ℤ) : ℚ) * ct ≤ max mwt ct := by
  rw [max_cycles_eq]
  by_cases h1 : (⌊mwt / ct⌋ : ℤ) < 1
  · rw [max_eq_left (le_of_lt h1)]
    rw [Int.cast_one, one_mul]
    exact le_max_right mwt ct
  · rw [max_eq_right (not_lt.mp h1)]
    have h2 : ((⌊mwt / ct⌋ : ℤ) : ℚ) ≤ mwt / ct := Int.floor_le _
    calc ((⌊mwt / ct⌋ : ℤ) : ℚ) * ct ≤ (mwt / ct) * ct :=
          mul_le_mul_of_nonneg_right h2 (le_of_lt hct)
      _ = mwt := div_mul_cancel₀ mwt (ne_of_gt hct)
      _ ≤ max mwt ct := le_max_left mwt ct

/-- C4. For valid inputs the result is a non-negative integer multiple of
`cycle_time`, and it is exactly 0 whenever `current_moisture ≥ target_moisture`. -/
theorem calculate_watering_duration_valid
    (cm tm ar ct : ℚ) (mwt : Option ℚ)
    (hcm : 0 ≤ cm) (htm : 0 < tm) (har : 0 < ar) (hct : 0 < ct) :
    (∃ n : ℕ, calculate_watering_duration cm tm ar ct mwt = (n : ℚ) * ct) ∧
    (tm ≤ cm → calculate_watering_duration cm tm ar ct mwt = 0) := by
  unfold calculate_watering_duration
  rw [sanitize_current_eq hcm, sanitize_target_eq htm, sanitize_rate_eq har,
      sanitize_cycle_eq hct]
  constructor
  · by_cases h0 : moisture_difference cm tm ≤ 0 ∨ mwt = some 0
    · rw [if_pos h0]
      exact ⟨0, by norm_num⟩
    · rw [if_neg h0]
      have hcyc : 0 ≤ cycles_needed cm tm ar ct := cycles_needed_nonneg hcm har hct
      cases mwt with
      | none =>
          refine ⟨(cycles_needed cm tm ar ct).toNat, ?_⟩
          simp only
          rw [int_toNat_cast_q hcyc]
      | some m =>
          simp only
          by_cases hm : 0 < m
          · rw [if_pos hm]
            refine ⟨(capped_cycles (cycles_needed cm tm ar ct) m ct).toNat, ?_⟩
            rw [int_toNat_cast_q (capped_cycles_nonneg hcyc m ct)]
          · rw [if_neg hm]
            refine ⟨(cycles_needed cm tm ar ct).toNat, ?_⟩
            rw [int_toNat_cast_q hcyc]
  · intro hle
    have : moisture_difference cm tm ≤ 0 := by
      unfold moisture_difference
      simp [sub_nonpos.mpr hle]
    rw [if_pos (Or.inl this)]

/-- C4 witness: concrete valid input, the result is a multiple of the cycle time. -/
theorem calculate_watering_duration_valid_witness :
    (0:ℚ) ≤ 20 ∧ (0:ℚ) < 30 ∧ (0:ℚ) < 1/2 ∧ (0:ℚ) < 15 ∧
    (∃ n : ℕ, calculate_watering_duration 20 30 (1/2) 15 none = (n : ℚ) * 15) :=
  ⟨by norm_num, by norm_num, by norm_num, by norm_num,
    (calculate_watering_duration_valid 20 30 (1/2) 15 none
      (by norm_num) (by norm_num) (by norm_num) (by norm_num)).1⟩

/-- C5. With a positive `max_watering_time` the cycle count is clamped to
`max(1, floor(max_watering_time / cycle_time))`, so the returned duration
never exceeds `max(max_watering_time, cycle_time)`. -/
theorem calculate_watering_duration_capped
    (cm tm ar : ℚ) {ct m : ℚ} (hct : 0 < ct) (hm : 0 < m) :
    calculate_watering_duration cm tm ar ct (some m) ≤
      ((max 1 ⌊m / ct⌋ : ℤ) : ℚ) * ct ∧
    calculate_watering_duration cm tm ar ct (some m) ≤ max m ct := by
  have hclamp : ((max_cycles m ct : ℤ) : ℚ) * ct ≤ max m ct := max_cycles_mul_le hct
  have hclamp0 : (0:ℚ) ≤ ((max_cycles m ct : ℤ) : ℚ) * ct := by
    apply mul_nonneg _ (le_of_lt hct)
    exact_mod_cast le_trans zero_le_one (one_le_max_cycles m ct)
  suffices h : calculate_watering_duration cm tm ar ct (some m) ≤
      ((max_cycles m ct : ℤ) : ℚ) * ct by
    rw [max_cycles_eq] at h
    exact ⟨h, le_trans h (by rw [← max_cycles_eq]; exact hclamp)⟩
  unfold calculate_watering_duration
  rw [sanitize_cycle_eq hct]
  by_cases h0 : moisture_difference (sanitize_current cm) (sanitize_target tm) ≤ 0 ∨
      (some m : Option ℚ) = some 0
  · rw [if_pos h0]; exact hclamp0
  · rw [if_neg h0]
    simp only [if_pos hm]
    apply mul_le_mul_of_nonneg_right _ (le_of_lt hct)
    exact_mod_cast capped_cycles_le _ m ct

/-- C5 witness: the spec's concrete example,
`calculate_watering_duration(10, 50, 0.1, 15, max_watering_time=30) ≤ 30`. -/
theorem calculate_watering_duration_capped_witness :
    (0:ℚ) < 15 ∧ (0:ℚ) < 30 ∧
    calculate_watering_duration 10 50 (1/10) 15 (some 30) ≤ 30 :=
  ⟨by norm_num, by norm_num, by
    have h := (calculate_watering_duration_capped 10 50 (1/10)
      (show (0:ℚ) < 15 by norm_num) (show (0:ℚ) < 30 by norm_num)).2
    exact h.trans_eq (by norm_num)⟩

/-! ## Absorption learner (`src/algorithms/absorption.py`)

`AbsorptionLearner` keeps a bounded list of accepted samples.  Timestamps
only matter for the 30-day pruning in `get_rate`/`get_confidence`, which the
claims do not touch, so a sample is modelled by its numeric payload. -/

/-- One stored data point of the absorption learner. -/
structure AbsorptionSample where
  pre_moisture : ℚ
  post_moisture : ℚ
  duration : ℚ
  rate : ℚ
deriving DecidableEq, Repr

/-- The learner's mutable state: the `_data_points` list, oldest first. -/
structure AbsorptionLearner where
  data_points : List AbsorptionSample
deriving DecidableEq, Repr

/-- `_max_valid_rate` (%/minute). -/
def max_valid_rate : ℚ := 5

/-- The sample built from one accepted `add_data_point` call. -/
def mkSample (pre post dur : ℚ) : AbsorptionSample :=
  ⟨pre, post, dur, (post - pre) / dur⟩

/-- `AbsorptionLearner.add_data_point`: reject non-positive durations,
non-positive rates and implausibly high rates; otherwise append the sample
and truncate the list to the most recent 100 entries. -/
def AbsorptionLearner.add_data_point
    (l : AbsorptionLearner) (pre_moisture post_moisture duration : ℚ) :
    AbsorptionLearner :=
  if duration ≤ 0 then l
  else
    let rate := (post_moisture - pre_moisture) / duration
    if rate ≤ 0 then l
    else if max_valid_rate < rate then l
    else
      let pts := l.data_points ++ [mkSample pre_moisture post_moisture duration]
      if 100 < pts.length then ⟨pts.drop (pts.length - 100)⟩ else ⟨pts⟩

/-- `AbsorptionLearner.reset`: clears all samples. -/
def AbsorptionLearner.reset (_l : AbsorptionLearner) : AbsorptionLearner := ⟨[]⟩

/-- C6.  `add_data_point` is a no-op on a non-positive duration, a
non-positive computed rate, or a rate above `max_valid_rate`; an accepted
call appends exactly one sample, dropping the oldest entries beyond 100,
and the stored list never exceeds 100 entries. -/
theorem add_data_point_spec (l : AbsorptionLearner) (pre post dur : ℚ) :
    (dur ≤ 0 → l.add_data_point pre post dur = l) ∧
    ((post - pre) / dur ≤ 0 → l.add_data_point pre post dur = l) ∧
    (max_valid_rate < (post - pre) / dur → l.add_data_point pre post dur = l) ∧
    (0 < dur → 0 < (post - pre) / dur → (post - pre) / dur ≤ max_valid_rate →
      (l.add_data_point pre post dur).data_points =
        (l.data_points ++ [mkSample pre post dur]).drop
          (l.data_points.length + 1 - 100)) ∧
    (l.data_points.length ≤ 100 →
      (l.add_data_point pre post dur).data_points.length ≤ 100) := by
  refine ⟨?_, ?_, ?_, ?_, ?_⟩
  · intro h
    unfold AbsorptionLearner.add_data_point
    rw [if_pos h]
  · intro h
    unfold AbsorptionLearner.add_data_point
    by_cases hdur : dur ≤ 0
    · rw [if_pos hdur]
    · rw [if_neg hdur]
      simp only [if_pos h]
  · intro h
    unfold AbsorptionLearner.add_data_point
    by_cases hdur : dur ≤ 0
    · rw [if_pos hdur]
    · rw [if_neg hdur]
      have h0 : ¬ (post - pre) / dur ≤ 0 := by
        intro hc
        exact absurd (lt_of_le_of_lt hc (lt_trans (by norm_num [max_valid_rate]) h))
          (lt_irrefl ((post - pre) / dur))
      simp only [if_neg h0, if_pos h]
  · intro h1 h2 h3
    unfold AbsorptionLearner.add_data_point
    rw [if_neg (not_le.mpr h1)]
    simp only [if_neg (not_le.mpr h2), if_neg (not_lt.mpr h3)]
    by_cases hlen : 100 < (l.data_points ++ [mkSample pre post dur]).length
    · rw [if_pos hlen]
      simp only [List.length_append, List.length_cons, List.length_nil]
    · rw [if_neg hlen]
      simp only [List.length_append, List.length_cons, List.length_nil] at hlen
      have hz : l.data_points.length + 1 - 100 = 0 := by omega
      rw [hz, List.drop_zero]
  · intro hle
    unfold AbsorptionLearner.add_data_point
    by_cases hdur : dur ≤ 0
    · rw [if_pos hdur]; exact hle
    · rw [if_neg hdur]
      by_cases h0 : (post - pre) / dur ≤ 0
      · simp only [if_pos h0]; exact hle
      · simp only [if_neg h0]
        by_cases h5 : max_valid_rate < (post - pre) / dur
        · simp only [if_pos h5]; exact hle
        · simp only [if_neg h5]
          by_cases hlen : 100 < (l.data_points ++ [mkSample pre post dur]).length
          · rw [if_pos hlen]
            simp only [List.length_drop]
            omega
          · rw [if_neg hlen]
            exact not_lt.mp hlen

/-- C6 witness: the spec's concrete rejection example
`add_data_point(25, 20, 30)` (negative rate) leaves the learner unchanged,
and an accepted sample on an empty learner keeps the list within 100. -/
theorem add_data_point_spec_witness :
    ((20 - 25 : ℚ) / 30 ≤ 0 ∧
      (AbsorptionLearner.mk []).add_data_point 25 20 30 = ⟨[]⟩) ∧
    ((AbsorptionLearner.mk []).data_points.length ≤ 100 ∧
      ((AbsorptionLearner.mk []).add_data_point 20 25 30).data_points.length ≤ 100) :=
  ⟨⟨by norm_num, (add_data_point_spec ⟨[]⟩ 25 20 30).2.1 (by norm_num)⟩,
   ⟨by simp, (add_data_point_spec ⟨[]⟩ 20 25 30).2.2.2.2 (by simp)⟩⟩

/-! ## Multi-zone time distribution (`src/algorithms/watering.py`)

`distribute_watering_time` receives one record per zone. -/

/-- The per-zone input record of `distribute_watering_time`. -/
structure ZoneWaterData where
  current_moisture : ℚ
  target_moisture : ℚ
  absorption_rate : ℚ
  moisture_deficit : ℚ
deriving DecidableEq, Repr, Inhabited

/-- The zone's moisture gap `max(0, target - current)` (in %). -/
def zoneGapOf (z : ZoneWaterData) : ℚ :=
  max 0 (z.target_moisture - z.current_moisture)

/-- `required = (deficit/absorption_rate)*saturation_factor` plus the
mm-deficit bonus `deficit_mm * 2.5` when `deficit_mm > 5.0`. -/
def zoneRequiredMinutes (z : ZoneWaterData) : ℚ :=
  let deficit := zoneGapOf z
  let ar := if z.absorption_rate ≤ 0 then 1/2 else z.absorption_rate
  let saturation_factor := 1 + (1/2) * (z.current_moisture / 100)
  let required_time := if 0 < deficit then (deficit / ar) * saturation_factor else 0
  let additional_time := if 5 < z.moisture_deficit then z.moisture_deficit * (5/2) else 0
  required_time + additional_time

/-- `distribute_watering_time` from `src/algorithms/watering.py`;
the result list maps each zone index to its granted cycle count. -/
def distribute_watering_time (zones_data : List ZoneWaterData)
    (available_minutes cycle_time : ℚ) (min_cycle_count : ℤ) : List ℤ :=
  let required_minutes := zones_data.map zoneRequiredMinutes
  let moisture_deficits := zones_data.map zoneGapOf
  let total_required_minutes := required_minutes.sum
  if total_required_minutes ≤ available_minutes then
    (List.range zones_data.length).map (fun i =>
      if 0 < moisture_deficits.getD i 0 then
        max min_cycle_count ⌈required_minutes.getD i 0 / cycle_time⌉
      else 0)
  else
    let deficit_count := (moisture_deficits.filter (fun d => decide (0 < d))).length
    let allocated_minutes := (min_cycle_count : ℚ) * cycle_time * deficit_count
    let remaining_minutes := available_minutes - allocated_minutes
    (List.range zones_data.length).map (fun i =>
      let base : ℤ := if 0 < moisture_deficits.getD i 0 then min_cycle_count else 0
      if 0 < remaining_minutes ∧ 0 < total_required_minutes ∧
          0 < required_minutes.getD i 0 then
        base + pyInt (remaining_minutes *
          (required_minutes.getD i 0 / total_required_minutes) / cycle_time)
      else base)

lemma getD_map_of_lt {α β : Type} (f : α → β) (l : List α) (i : ℕ) (d : β) (d0 : α)
    (hi : i < l.length) : (l.map f).getD i d = f (l.getD i d0) := by
  induction l generalizing i with
  | nil => simp at hi
  | cons a t ih =>
      cases i with
      | zero => rfl
      | succ n => exact ih n (by simpa using hi)

lemma getD_range_map {β : Type} (f : ℕ → β) (n i : ℕ) (d : β) (hi : i < n) :
    ((List.range n).map f).getD i d = f i := by
  rw [getD_map_of_lt f (List.range n) i d 0 (by simpa using hi)]
  congr 1
  rw [List.getD_eq_getElem _ _ (by simpa using hi)]
  simp

/-- C7.  When the total required time fits in the available budget, every
zone with a positive moisture gap is granted exactly
`max(min_cycle_count, ceil(required_minutes/cycle_time))` cycles, and every
zone with no gap is granted 0 cycles. -/
theorem distribute_watering_time_sufficient
    (zones_data : List ZoneWaterData) (available_minutes cycle_time : ℚ)
    (min_cycle_count : ℤ) (i : ℕ) (hi : i < zones_data.length)
    (hsum : (zones_data.map zoneRequiredMinutes).sum ≤ available_minutes) :
    (0 < (zones_data.getD i default).target_moisture -
          (zones_data.getD i default).current_moisture →
      (distribute_watering_time zones_data available_minutes cycle_time
          min_cycle_count).getD i 0 =
        max min_cycle_count
          ⌈zoneRequiredMinutes (zones_data.getD i default) / cycle_time⌉) ∧
    ((zones_data.getD i default).target_moisture ≤
          (zones_data.getD i default).current_moisture →
      (distribute_watering_time zones_data available_minutes cycle_time
          min_cycle_count).getD i 0 = 0) := by
  unfold distribute_watering_time
  simp only [if_pos hsum]
  rw [getD_range_map _ _ _ _ hi]
  rw [getD_map_of_lt zoneGapOf zones_data i 0 default hi]
  rw [getD_map_of_lt zoneRequiredMinutes zones_data i 0 default hi]
  constructor
  · intro hpos
    rw [if_pos (show (0:ℚ) < zoneGapOf (zones_data.getD i default) from
      lt_max_iff.mpr (Or.inr hpos))]
  · intro hle
    rw [if_neg (show ¬ (0:ℚ) < zoneGapOf (zones_data.getD i default) from by
      unfold zoneGapOf
      rw [max_eq_left (sub_nonpos.mpr hle)]
      exact lt_irrefl 0)]

/-- C7 witness: one needy zone and one satisfied zone under a large budget. -/
theorem distribute_watering_time_sufficient_witness :
    (0:ℕ) < 2 ∧ (1:ℕ) < 2 ∧
    (([⟨20, 40, 1/2, 0⟩, ⟨50, 40, 1/2, 0⟩] :
        List ZoneWaterData).map zoneRequiredMinutes).sum ≤ 1000 ∧
    (0:ℚ) < 40 - 20 ∧ (40:ℚ) ≤ 50 ∧
    (distribute_watering_time
        ([⟨20, 40, 1/2, 0⟩, ⟨50, 40, 1/2, 0⟩] : List ZoneWaterData)
        1000 15 1).getD 0 0 =
      max 1 ⌈zoneRequiredMinutes (⟨20, 40, 1/2, 0⟩ : ZoneWaterData) / 15⌉ ∧
    (distribute_watering_time
        ([⟨20, 40, 1/2, 0⟩, ⟨50, 40, 1/2, 0⟩] : List ZoneWaterData)
        1000 15 1).getD 1 0 = 0 := by
  have hsum : (([⟨20, 40, 1/2, 0⟩, ⟨50, 40, 1/2, 0⟩] :
      List ZoneWaterData).map zoneRequiredMinutes).sum ≤ 1000 := by
    norm_num [zoneRequiredMinutes, zoneGapOf]
  refine ⟨by norm_num, by norm_num, hsum, by norm_num, by norm_num, ?_, ?_⟩
  · have h := (distribute_watering_time_sufficient
      ([⟨20, 40, 1/2, 0⟩, ⟨50, 40, 1/2, 0⟩] : List ZoneWaterData)
      1000 15 1 0 (by norm_num) hsum).1 (by norm_num)
    exact h
  · have h := (distribute_watering_time_sufficient
      ([⟨20, 40, 1/2, 0⟩, ⟨50, 40, 1/2, 0⟩] : List ZoneWaterData)
      1000 15 1 1 (by norm_num) hsum).2 (by norm_num)
    exact h

/-! ## Moisture-deficit updates

The deficit of a zone is touched by four code paths:
`WeatherManager.async_daily_update` (`src/weather.py`), the sensor-drop
accumulation in `StateTracker._handle_moisture_change`
(`src/zone_control/tracker.py`), the post-watering reduction
`ZoneProcessor._update_moisture_deficit` (`src/zone_control/processor.py`),
and `SprinklersController.update_moisture` (`src/controller.py`). -/

/-- Per-zone step of `WeatherManager.async_daily_update`:
`deficit = max(0.0, old + zone_et - effective_rain)`. -/
def daily_deficit_update (old_deficit zone_et effective_rain : ℚ) : ℚ :=
  max 0 (old_deficit + zone_et - effective_rain)

/-- Deficit step of `StateTracker._handle_moisture_change`: when the new
reading dropped versus the previous history entry, add the drop (1% ≈ 1mm). -/
def sensor_drop_update (old_deficit previous_reading new_moisture : ℚ) : ℚ :=
  if 0 < previous_reading - new_moisture then
    old_deficit + (previous_reading - new_moisture) * 1
  else old_deficit

/-- `ZoneProcessor._update_moisture_deficit`: when the measured moisture
increase is positive, subtract its mm equivalent, clamped at 0. -/
def post_watering_deficit_update (old_deficit moisture_increase : ℚ) : ℚ :=
  if 0 < moisture_increase then max 0 (old_deficit - moisture_increase * 1)
  else old_deficit

/-- Per-zone step of `SprinklersController.update_moisture`
(`src/controller.py` line 82): `deficit += et0 * kc - effective_rain`,
with no clamping (a negative result represents surplus and is kept). -/
def controller_update_moisture_step (old_deficit et0 kc effective_rain : ℚ) : ℚ :=
  old_deficit + et0 * kc - effective_rain

/-- One deficit-updating operation, tagged with its environment inputs. -/
inductive DeficitOp where
  | daily (zone_et effective_rain : ℚ)
  | sensorDrop (previous_reading new_moisture : ℚ)
  | postWatering (moisture_increase : ℚ)
deriving DecidableEq, Repr

/-- Apply one coordinator-path deficit update. -/
def applyDeficitOp (d : ℚ) : DeficitOp → ℚ
  | .daily et rain => daily_deficit_update d et rain
  | .sensorDrop prev new => sensor_drop_update d prev new
  | .postWatering inc => post_watering_deficit_update d inc

/-- C2 counterexample.  The claim includes
`SprinklersController.update_moisture` (`src/controller.py:77-83`) among the
daily updates, but that code path does not clamp: starting from the initial
deficit 0.0, a day with the default ET estimate 5mm, crop coefficient 1 and
10mm of rain drives the deficit to -5mm < 0. -/
theorem deficit_nonneg_counterexample :
    controller_update_moisture_step 0 5 1 10 < 0 := by
  norm_num [controller_update_moisture_step]

/-- C2 as amended: every sequence of coordinator-path deficit updates
(daily weather update, sensor-observed drop accumulation, post-watering
reduction) keeps the deficit ≥ 0 from the initial value 0. -/
theorem deficit_nonneg_coordinator_updates (ops : List DeficitOp) :
    0 ≤ ops.foldl applyDeficitOp 0 := by
  have step : ∀ (d : ℚ) (op : DeficitOp), 0 ≤ d → 0 ≤ applyDeficitOp d op := by
    intro d op hd
    cases op with
    | daily et rain => exact le_max_left 0 _
    | sensorDrop prev new =>
        show 0 ≤ sensor_drop_update d prev new
        unfold sensor_drop_update
        split
        · rename_i h
          have h1 : (0:ℚ) ≤ (prev - new) * 1 := by
            rw [mul_one]; exact le_of_lt h
          linarith
        · exact hd
    | postWatering inc =>
        show 0 ≤ post_watering_deficit_update d inc
        unfold post_watering_deficit_update
        split
        · exact le_max_left 0 _
        · exact hd
  have gen : ∀ (l : List DeficitOp) (d : ℚ), 0 ≤ d → 0 ≤ l.foldl applyDeficitOp d := by
    intro l
    induction l with
    | nil => intro d hd; exact hd
    | cons op t ih => intro d hd; exact ih (applyDeficitOp d op) (step d op hd)
  exact gen ops 0 (le_refl 0)

/-! ## Scheduler (`src/zone_control/scheduler.py`)

`get_schedule_remaining_time` reads the configured schedule entity and its
attributes.  The host's entity registry and datetime parsing are external,
so they enter the model as an explicit snapshot: `next_state_change` and
`end_time` are `none` when the attribute is absent and `some none` when it
is present but fails to parse (which in the source falls through to the
final default).  Instants are rational minute timestamps. -/

/-- Snapshot of everything `get_schedule_remaining_time` reads. -/
structure ScheduleSnapshot where
  has_entity : Bool
  state_available : Bool
  state_on : Bool
  next_state_change : Option (Option ℚ)
  end_time : Option (Option ℚ)
  now : ℚ
deriving DecidableEq, Repr

/-- `Scheduler.get_schedule_remaining_time` from
`src/zone_control/scheduler.py`. -/
def get_schedule_remaining_time (s : ScheduleSnapshot) : Option ℚ :=
  if ¬ s.has_entity then none
  else if ¬ s.state_available ∨ ¬ s.state_on then some 0
  else
    match s.next_state_change with
    | some (some next_change) =>
        if s.now < next_change then some (next_change - s.now) else some 0
    | _ =>
        match s.end_time with
        | some (some end_t) =>
            if s.now < end_t then some (end_t - s.now) else some 0
        | _ => some 10

/-- Whenever a schedule entity is configured, the source never returns
`None`: every branch after the entity check produces a number. -/
lemma get_remaining_isSome {s : ScheduleSnapshot} (h : s.has_entity = true) :
    ∃ q, get_schedule_remaining_time s = some q := by
  unfold get_schedule_remaining_time
  rw [if_neg (by simp [h])]
  by_cases hv : ¬ s.state_available = true ∨ ¬ s.state_on = true
  · rw [if_pos hv]; exact ⟨0, rfl⟩
  · rw [if_neg hv]
    rcases hnc : s.next_state_change with _ | nc
    · rcases het : s.end_time with _ | et
      · exact ⟨10, rfl⟩
      · rcases et with _ | e
        · exact ⟨10, rfl⟩
        · show ∃ q, (if s.now < e then some (e - s.now) else some 0) = some q
          split
          · exact ⟨e - s.now, rfl⟩
          · exact ⟨0, rfl⟩
    · rcases nc with _ | t
      · rcases het : s.end_time with _ | et
        · exact ⟨10, rfl⟩
        · rcases et with _ | e
          · exact ⟨10, rfl⟩
          · show ∃ q, (if s.now < e then some (e - s.now) else some 0) = some q
            split
            · exact ⟨e - s.now, rfl⟩
            · exact ⟨0, rfl⟩
      · show ∃ q, (if s.now < t then some (t - s.now) else some 0) = some q
        split
        · exact ⟨t - s.now, rfl⟩
        · exact ⟨0, rfl⟩

/-- C9 counterexample.  With a schedule entity configured, its state `on`,
and no parsable end-of-window information, the source returns the fixed
default 10 minutes — not `None` as the claim states for the indeterminate
case. -/
theorem schedule_remaining_counterexample :
    get_schedule_remaining_time ⟨true, true, true, none, none, 0⟩ = some 10 ∧
    get_schedule_remaining_time ⟨true, true, true, none, none, 0⟩ ≠ none := by
  refine ⟨rfl, ?_⟩
  intro h
  exact Option.noConfusion (rfl.symm.trans h :
    (some 10 : Option ℚ) = none)

/-- C9 as amended: `get_schedule_remaining_time` returns `None` exactly when
no schedule entity is configured; returns 0 when the entity is unavailable
or not `on` (not in the window); returns the minutes to a known, future
window end; returns 0 when the known end is not in the future; and returns
the fixed default 10 when it is in the window but the end is indeterminate. -/
theorem schedule_remaining_spec (s : ScheduleSnapshot) :
    (get_schedule_remaining_time s = none ↔ s.has_entity = false) ∧
    (s.has_entity = true → (s.state_available = false ∨ s.state_on = false) →
      get_schedule_remaining_time s = some 0) ∧
    (s.has_entity = true → s.state_available = true → s.state_on = true →
      ∀ t, s.next_state_change = some (some t) →
        get_schedule_remaining_time s =
          if s.now < t then some (t - s.now) else some 0) ∧
    (s.has_entity = true → s.state_available = true → s.state_on = true →
      (s.next_state_change = none ∨ s.next_state_change = some none) →
      ∀ e, s.end_time = some (some e) →
        get_schedule_remaining_time s =
          if s.now < e then some (e - s.now) else some 0) ∧
    (s.has_entity = true → s.state_available = true → s.state_on = true →
      (s.next_state_change = none ∨ s.next_state_change = some none) →
      (s.end_time = none ∨ s.end_time = some none) →
      get_schedule_remaining_time s = some 10) := by
  refine ⟨?_, ?_, ?_, ?_, ?_⟩
  · constructor
    · intro h
      by_cases he : s.has_entity = true
      · rcases get_remaining_isSome he with ⟨q, hq⟩
        rw [hq] at h
        exact Option.noConfusion h
      · simpa using he
    · intro h
      unfold get_schedule_remaining_time
      rw [if_pos (by simp [h])]
  · intro he hoff
    unfold get_schedule_remaining_time
    rw [if_neg (by simp [he])]
    rw [if_pos (by rcases hoff with h | h <;> simp [h])]
  · intro he hav hon t hnc
    unfold get_schedule_remaining_time
    rw [if_neg (by simp [he]), if_neg (by simp [hav, hon]), hnc]
  · intro he hav hon hnc e het
    unfold get_schedule_remaining_time
    rw [if_neg (by simp [he]), if_neg (by simp [hav, hon])]
    rcases hnc with h | h <;> rw [h, het]
  · intro he hav hon hnc het
    unfold get_schedule_remaining_time
    rw [if_neg (by simp [he]), if_neg (by simp [hav, hon])]
    rcases hnc with h | h <;> rw [h] <;> rcases het with h2 | h2 <;> rw [h2]

/-- C9 witness: a configured entity in its window with a parsed
`next_state_change` 25 minutes ahead yields 25 remaining minutes. -/
theorem schedule_remaining_spec_witness :
    get_schedule_remaining_time ⟨true, true, true, some (some 25), none, 0⟩ =
      some 25 := by
  have h := (schedule_remaining_spec
    ⟨true, true, true, some (some 25), none, 0⟩).2.2.1
    rfl rfl rfl 25 rfl
  rw [h, if_pos (by norm_num)]
  norm_num

/-! ## Zone controller state machine (`src/zone_control/`)

The modular zone controller (`ZoneController` with its `ZoneProcessor`,
`QueueManager` and `Scheduler`) is modelled as a transition system.  Each
externally triggered operation (zone evaluation, queue processing, the
cycle-end / soak-end / final-measurement timer callbacks, and the stop
paths) is one atomic step; the host's timers are taken as reliable and the
nondeterministic environment (sensor reads, actuator outcomes, schedule
signals, the learner's current rate, the clock) enters as explicit step
parameters.  Both wall-clock deadlines and the queue manager's clock are
placed on one rational timeline.  Zone ids are natural numbers and the
coordinator's `zones` dict is an association list whose key set never
changes after setup. -/

/-- The `state` field of a zone record. -/
inductive ZState where
  | idle
  | watering
  | soaking
  | measuring
deriving DecidableEq, Repr

/-- The per-zone record kept in `coordinator.zones` (the fields the zone
control logic reads or writes; `pre_watering_moisture` is an `Option`
because the dict key is absent until the first cycle starts). -/
structure ZoneData where
  state : ZState
  min_moisture : ℚ
  max_moisture : ℚ
  max_watering_time : ℚ
  cycle_count : ℤ
  current_cycle : ℤ
  moisture_deficit : ℚ
  efficiency_factor : ℚ
  pre_watering_moisture : Option ℚ
  watering_expected_increase : ℚ
  soaking_efficiency : ℚ
deriving DecidableEq, Repr

/-- One entry of `controller.soaking_zones` (the cancel callback is host
infrastructure and carries no state). -/
structure SoakData where
  ready_at : ℚ
  pre_soak_moisture : ℚ
deriving DecidableEq, Repr

/-- Association-list lookup for the zone / soaking dicts. -/
def alookup {β : Type} (k : ℕ) : List (ℕ × β) → Option β
  | [] => none
  | (k2, v) :: rest => if k2 = k then some v else alookup k rest

/-- Update the value stored under a key (all occurrences; the dicts keep
their keys unique). -/
def aupdate {β : Type} (k : ℕ) (f : β → β) : List (ℕ × β) → List (ℕ × β)
  | [] => []
  | (k2, v) :: rest =>
      if k2 = k then (k2, f v) :: aupdate k f rest else (k2, v) :: aupdate k f rest

/-- Python dict assignment: replace the binding if present, else append. -/
def ainsert {β : Type} (k : ℕ) (v : β) : List (ℕ × β) → List (ℕ × β)
  | [] => [(k, v)]
  | (k2, v2) :: rest =>
      if k2 = k then (k2, v) :: rest else (k2, v2) :: ainsert k v rest

/-- Python dict deletion. -/
def aremove {β : Type} (k : ℕ) (l : List (ℕ × β)) : List (ℕ × β) :=
  l.filter (fun p => decide (p.1 ≠ k))

/-- The controller + coordinator state shared by the zone-control modules. -/
structure SysState where
  zones : List (ℕ × ZoneData)
  active_zone : Option ℕ
  soaking_zones : List (ℕ × SoakData)
  zone_queue : List ℕ
  system_enabled : Bool
  shutdown_requested : Bool
  stop_requested : Bool
  queue_processing_active : Bool
  sprinklers_active : Bool
  cycle_time : ℚ
  soak_time : ℚ
  freeze_threshold : ℚ
deriving DecidableEq, Repr

/-- Outcome of reading a sensor through `hass.states.get` + `float(...)`:
the entity may be missing, its state may fail to parse, or it yields a
number. -/
inductive SensorRead where
  | missing
  | unparsable
  | value (m : ℚ)
deriving DecidableEq, Repr

/-- `ZoneProcessor.turn_on_zone`.  `actuator_ok` is the outcome of the
`switch.turn_on` service call; on failure the zone state reverts to idle
and the active-zone pointer is not set. -/
def turn_on_zone (s : SysState) (zone_id : ℕ) (actuator_ok : Bool) :
    SysState × Bool :=
  if (alookup zone_id s.zones).isNone then (s, false)
  else if s.shutdown_requested then (s, false)
  else if actuator_ok then
    ({ s with zones := aupdate zone_id (fun d => { d with state := ZState.watering }) s.zones,
              active_zone := some zone_id,
              sprinklers_active := true }, true)
  else
    ({ s with zones := aupdate zone_id (fun d => { d with state := ZState.idle }) s.zones },
     false)

/-- `ZoneProcessor.turn_off_zone`.  The zone's `state` field is not touched
here; the active-zone pointer is cleared whether or not the `switch.turn_off`
call succeeded (the failure branch clears it as an explicit safety measure
and returns `False`). -/
def turn_off_zone (s : SysState) (zone_id : ℕ) (actuator_ok : Bool) :
    SysState × Bool :=
  if (alookup zone_id s.zones).isNone then (s, false)
  else if actuator_ok then
    (if s.active_zone = some zone_id then
       let s2 := { s with active_zone := none }
       if s2.soaking_zones = [] then { s2 with sprinklers_active := false } else s2
     else s, true)
  else
    (if s.active_zone = some zone_id then { s with active_zone := none } else s,
     false)

/-- `ZoneProcessor.start_zone_cycle`: record the pre-watering moisture and
the expected increase (`rate * cycle_time`, with `rate` the learner's
current output), then turn the zone on; on failure fall back to the queue
bookkeeping.  Scheduling of the cycle-end timer is taken as reliable. -/
def start_zone_cycle (s : SysState) (zone_id : ℕ) (current_moisture rate : ℚ)
    (actuator_ok : Bool) : SysState :=
  if s.shutdown_requested then
    if s.zone_queue = [] then { s with queue_processing_active := false } else s
  else if (alookup zone_id s.zones).isNone then
    if s.zone_queue ≠ [] then s else { s with queue_processing_active := false }
  else
    let s1 := { s with zones := aupdate zone_id (fun d =>
      { d with pre_watering_moisture := some current_moisture,
               watering_expected_increase := rate * s.cycle_time }) s.zones }
    let r := turn_on_zone s1 zone_id actuator_ok
    if r.2 then r.1
    else if r.1.zone_queue ≠ [] then r.1
    else { r.1 with queue_processing_active := false }

/-- `QueueManager._calculate_and_start_watering`: compute the duration with
the efficiency-adjusted learner rate, derive `cycle_count` and start the
first cycle, or skip the zone when no watering is needed. -/
def calculate_and_start_watering (s : SysState) (zone_id : ℕ)
    (current_moisture rate : ℚ) (actuator_ok : Bool) : SysState :=
  if s.shutdown_requested then s
  else
    match alookup zone_id s.zones with
    | none => s
    | some d =>
        let adjusted_rate := rate * d.efficiency_factor
        let watering_duration := calculate_watering_duration current_moisture
          d.max_moisture adjusted_rate s.cycle_time (some d.max_watering_time)
        if 0 < watering_duration then
          let s1 := { s with zones := aupdate zone_id (fun d2 =>
            { d2 with cycle_count := max 1 (pyInt (watering_duration / s.cycle_time)),
                      current_cycle := 1 }) s.zones }
          start_zone_cycle s1 zone_id current_moisture rate actuator_ok
        else if s.zone_queue ≠ [] then s
        else { s with queue_processing_active := false }

/-- The collection loop of `QueueManager._check_soaking_zones`: walk the
soaking dict in order, dropping entries of deleted zones, collecting the
zones whose soak deadline has passed, and keeping the rest. -/
def collect_ready (zs : List (ℕ × ZoneData)) (now : ℚ) :
    List (ℕ × SoakData) → List ℕ × List (ℕ × SoakData)
  | [] => ([], [])
  | (zone_id, data) :: rest =>
      let r := collect_ready zs now rest
      if (alookup zone_id zs).isNone then r
      else if data.ready_at ≤ now then (zone_id :: r.1, r.2)
      else (r.1, (zone_id, data) :: r.2)

/-- `for zone_id in reversed(ready_zones): queue.insert(0, zone_id)`. -/
def insert_front_rev (ready queue : List ℕ) : List ℕ :=
  ready.reverse.foldl (fun acc zone_id => zone_id :: acc) queue

/-- `QueueManager._check_soaking_zones`: move every soak-completed zone to
the front of the queue, keeping their original relative order. -/
def check_soaking_zones (s : SysState) (now : ℚ) : SysState :=
  let r := collect_ready s.zones now s.soaking_zones
  { s with soaking_zones := r.2, zone_queue := insert_front_rev r.1 s.zone_queue }

/-- The environment of one iteration of the `process_queue` loop. -/
structure PQIterEnv where
  in_schedule : Bool
  remaining : Option ℚ
  moisture : Option ℚ
  rate : ℚ
  actuator_ok : Bool
deriving DecidableEq, Repr

/-- The `while not active_zone and zone_queue:` loop of
`QueueManager.process_queue`.  One environment record is consumed per
iteration; the loop pops at most one zone per iteration, so any environment
list at least as long as the queue covers every real run. -/
def pq_loop (s : SysState) : List PQIterEnv → SysState
  | [] => s
  | e :: rest =>
      if s.active_zone.isSome ∨ s.zone_queue = [] then s
      else if s.shutdown_requested then
        { s with zone_queue := [], queue_processing_active := false }
      else if ¬ e.in_schedule then
        { s with zone_queue := [], queue_processing_active := false }
      else if (match e.remaining with
               | some r => decide (r < 10)
               | none => false) then
        { s with zone_queue := [], queue_processing_active := false }
      else
        match s.zone_queue with
        | [] => s
        | zone_id :: q =>
            let s1 := { s with zone_queue := q }
            match alookup zone_id s1.zones with
            | none => pq_loop s1 rest
            | some d =>
                match e.moisture with
                | none => pq_loop s1 rest
                | some m =>
                    if d.min_moisture < m ∧ d.moisture_deficit < 5 then
                      pq_loop s1 rest
                    else
                      calculate_and_start_watering s1 zone_id m e.rate e.actuator_ok

/-- `QueueManager.process_queue`: shutdown clears the queue; a second
in-flight invocation is a no-op; otherwise sweep the soak-completed zones to
the front and run the dequeue loop, releasing the processing flag when
nothing remains anywhere. -/
def process_queue (s : SysState) (now : ℚ) (envs : List PQIterEnv) : SysState :=
  if s.shutdown_requested then
    { s with zone_queue := [], queue_processing_active := false }
  else if s.queue_processing_active then s
  else
    let s1 := { s with queue_processing_active := true }
    let s2 := check_soaking_zones s1 now
    let s3 := pq_loop s2 envs
    if s3.active_zone = none ∧ s3.zone_queue = [] ∧ s3.soaking_zones = [] then
      { s3 with queue_processing_active := false }
    else s3

/-- `ZoneProcessor._update_efficiency_factor` (step 0.05, bounds [0.5, 1]). -/
def update_efficiency_factor (old_factor efficiency_ratio : ℚ) : ℚ :=
  let new_factor :=
    if 1 < efficiency_ratio then min 1 (old_factor + 1/20)
    else if efficiency_ratio < 4/5 then max (1/2) (old_factor - 1/20)
    else old_factor + (1/40) * (efficiency_ratio - 1)
  max (1/2) (min 1 new_factor)

/-- `ZoneProcessor.start_soak_cycle`: mark the zone soaking, bump
`current_cycle`, and (unless the moisture read raises) register the soak
entry with its deadline.  The spawned `process_queue` is a separate step. -/
def start_soak_cycle (s : SysState) (zone_id : ℕ) (read : SensorRead) (now : ℚ) :
    SysState :=
  if s.shutdown_requested then s
  else
    match alookup zone_id s.zones with
    | none => s
    | some d =>
        let s1 := { s with zones := aupdate zone_id (fun d2 =>
          { d2 with state := ZState.soaking, current_cycle := d2.current_cycle + 1 }) s.zones }
        match read with
        | SensorRead.unparsable => s1
        | SensorRead.missing =>
            { s1 with soaking_zones :=
                ainsert zone_id (SoakData.mk (now + s.soak_time)
                  (d.pre_watering_moisture.getD 0)) s1.soaking_zones }
        | SensorRead.value m =>
            { s1 with soaking_zones :=
                ainsert zone_id (SoakData.mk (now + s.soak_time) m) s1.soaking_zones }

/-- `ZoneProcessor.handle_cycle_end`: under shutdown just force the valve
off; otherwise turn the zone off and either finish (state measuring, final
measurement timer) or enter the soak cycle. -/
def handle_cycle_end (s : SysState) (zone_id : ℕ) (off_ok : Bool)
    (read : SensorRead) (now : ℚ) : SysState :=
  if s.shutdown_requested then (turn_off_zone s zone_id off_ok).1
  else
    match alookup zone_id s.zones with
    | none =>
        if s.zone_queue ≠ [] then s else { s with queue_processing_active := false }
    | some d =>
        let s1 := (turn_off_zone s zone_id off_ok).1
        if d.cycle_count ≤ d.current_cycle then
          let s2 := { s1 with zones := aupdate zone_id (fun d2 =>
            { d2 with state := ZState.measuring }) s1.zones }
          if s2.zone_queue ≠ [] then s2
          else if s2.active_zone = none ∧ s2.soaking_zones = [] then
            { s2 with queue_processing_active := false, sprinklers_active := false }
          else s2
        else start_soak_cycle s1 zone_id read now

/-- `ZoneProcessor.handle_soak_end`: drop the soak entry; if the zone still
exists, reinsert it at the front of the queue for its next cycle. -/
def handle_soak_end (s : SysState) (zone_id : ℕ) : SysState :=
  if s.shutdown_requested then
    { s with soaking_zones := aremove zone_id s.soaking_zones }
  else
    let s1 := { s with soaking_zones := aremove zone_id s.soaking_zones }
    match alookup zone_id s1.zones with
    | none => s1
    | some _ => { s1 with zone_queue := zone_id :: s1.zone_queue }

/-- The zone-record update applied by `handle_final_measurement`: adjust the
efficiency factor (when an expected increase was recorded), record the
soaking efficiency, reduce the moisture deficit by the measured increase,
and return the zone to idle. -/
def final_measurement_update (expected moisture_increase hours : ℚ)
    (d2 : ZoneData) : ZoneData :=
  let d3 :=
    if 0 < expected then
      { d2 with efficiency_factor :=
          (update_efficiency_factor d2.efficiency_factor
            (moisture_increase / expected)) }
    else d2
  let d4 :=
    if 0 < hours then
      { d3 with soaking_efficiency := moisture_increase / hours }
    else d3
  { d4 with
      moisture_deficit :=
        post_watering_deficit_update d4.moisture_deficit moisture_increase,
      state := ZState.idle }

/-- `ZoneProcessor.handle_final_measurement`: read the final moisture
(falling back to the recorded pre-watering value when the sensor is
missing), apply `final_measurement_update`; an unparsable reading only
resets the state to idle.  The learner update is modelled separately
(`AbsorptionLearner.add_data_point`). -/
def handle_final_measurement (s : SysState) (zone_id : ℕ) (read : SensorRead) :
    SysState :=
  let s9 :=
    match alookup zone_id s.zones with
    | none => s
    | some d =>
        match read with
        | SensorRead.unparsable =>
            { s with zones := aupdate zone_id (fun d2 =>
                { d2 with state := ZState.idle }) s.zones }
        | _ =>
            let current_moisture :=
              match read with
              | SensorRead.value m => m
              | _ => d.pre_watering_moisture.getD 0
            let pre_moisture := d.pre_watering_moisture.getD current_moisture
            let moisture_increase := current_moisture - pre_moisture
            let hours := (d.cycle_count : ℚ) * s.cycle_time / 60
            { s with zones :=
                (aupdate zone_id
                  (final_measurement_update d.watering_expected_increase
                    moisture_increase hours) s.zones) }
  if s9.active_zone = none ∧ s9.soaking_zones = [] ∧ s9.zone_queue = [] then
    { s9 with queue_processing_active := false, sprinklers_active := false }
  else s9

/-- `QueueManager.evaluate_zone` (reached through
`ZoneController.process_zone`): skip when the system is stopped, the zone is
busy, or a sensor is unusable; enqueue (without duplicates) when watering is
needed and the schedule/weather gates allow it. -/
def evaluate_zone (s : SysState) (zone_id : ℕ)
    (moisture temperature : Option ℚ)
    (in_schedule rain_forecasted freezing_forecasted : Bool) : SysState :=
  if s.stop_requested ∨ s.shutdown_requested then s
  else if ¬ s.system_enabled then s
  else if s.active_zone = some zone_id ∨ (alookup zone_id s.soaking_zones).isSome then s
  else
    match alookup zone_id s.zones with
    | none => s
    | some d =>
        if d.state = ZState.watering ∨ d.state = ZState.soaking then s
        else
          match moisture, temperature with
          | some m, some t =>
              if m ≤ d.min_moisture ∨ 5 ≤ d.moisture_deficit then
                if in_schedule ∧ ¬ rain_forecasted ∧ ¬ freezing_forecasted ∧
                    s.freeze_threshold < t then
                  if zone_id ∉ s.zone_queue ∧ (alookup zone_id s.soaking_zones).isNone then
                    { s with zone_queue := s.zone_queue ++ [zone_id] }
                  else s
                else s
              else s
          | _, _ => s

/-- `ZoneController.stop_all_watering`: clear the queue, force the active
zone off and idle, idle every soaking zone, drop the soak entries and reset
the operational flags.  The active-zone pointer and the sprinkler flag are
assigned unconditionally at the end of the source path (the intermediate
`turn_off_zone` bookkeeping is overwritten, and the actuator outcome does
not affect the stored state), so the net state change is expressed
directly. -/
def stop_all_watering (s : SysState) (_off_ok : Bool) : SysState :=
  let zones1 :=
    match s.active_zone with
    | some zone_id =>
        match alookup zone_id s.zones with
        | some _ =>
            aupdate zone_id (fun d : ZoneData => { d with state := ZState.idle }) s.zones
        | none => s.zones
    | none => s.zones
  let zones2 := zones1.map (fun p : ℕ × ZoneData =>
    if (alookup p.1 s.soaking_zones).isSome then
      (p.1, { p.2 with state := ZState.idle })
    else p)
  { s with zones := zones2,
           active_zone := none,
           soaking_zones := [],
           zone_queue := [],
           stop_requested := true,
           queue_processing_active := false,
           sprinklers_active := false }

/-- One atomic operation of the zone controller, as listed in the claim:
zone evaluation, queue processing, the three timer callbacks, and the stop
paths (`stop_all_watering` directly and through the coordinator's
`emergency_shutdown`, which first raises the shutdown flag). -/
inductive Step : SysState → SysState → Prop where
  | evaluate (s : SysState) (zone_id : ℕ) (moisture temperature : Option ℚ)
      (in_schedule rain freezing : Bool) :
      Step s (evaluate_zone s zone_id moisture temperature in_schedule rain freezing)
  | processQueue (s : SysState) (now : ℚ) (envs : List PQIterEnv) :
      Step s (process_queue s now envs)
  | cycleEnd (s : SysState) (zone_id : ℕ) (off_ok : Bool) (read : SensorRead) (now : ℚ) :
      Step s (handle_cycle_end s zone_id off_ok read now)
  | soakEnd (s : SysState) (zone_id : ℕ) :
      Step s (handle_soak_end s zone_id)
  | finalMeasurement (s : SysState) (zone_id : ℕ) (read : SensorRead) :
      Step s (handle_final_measurement s zone_id read)
  | stopAll (s : SysState) (off_ok : Bool) :
      Step s (stop_all_watering s off_ok)
  | emergencyShutdown (s : SysState) (off_ok : Bool) :
      Step s (stop_all_watering { s with shutdown_requested := true } off_ok)

/-- A freshly set-up controller: every configured zone is idle, nothing is
active, queued or soaking, and no stop was requested. -/
def InitState (s : SysState) : Prop :=
  (s.zones.map Prod.fst).Nodup ∧
  (∀ p ∈ s.zones, p.2.state = ZState.idle) ∧
  s.active_zone = none ∧
  s.soaking_zones = [] ∧
  s.zone_queue = [] ∧
  s.shutdown_requested = false

/-- States reachable from a freshly set-up controller by the operations. -/
inductive Reachable : SysState → Prop where
  | init (s : SysState) (h : InitState s) : Reachable s
  | step (s s2 : SysState) (h : Reachable s) (hs : Step s s2) : Reachable s2

/-- The number of zone records currently in the `watering` state. -/
def countWatering (s : SysState) : ℕ :=
  (s.zones.filter (fun p => decide (p.2.state = ZState.watering))).length

/-! ### Association-list lemmas -/

lemma aupdate_keys {β : Type} (k : ℕ) (f : β → β) (l : List (ℕ × β)) :
    (aupdate k f l).map Prod.fst = l.map Prod.fst := by
  induction l with
  | nil => rfl
  | cons p rest ih =>
      obtain ⟨k2, v⟩ := p
      unfold aupdate
      by_cases h : k2 = k
      · rw [if_pos h]; simpa using ih
      · rw [if_neg h]; simpa using ih

lemma mem_aupdate {β : Type} {k : ℕ} {f : β → β} {l : List (ℕ × β)} {p : ℕ × β}
    (h : p ∈ aupdate k f l) :
    (p ∈ l ∧ p.1 ≠ k) ∨ (∃ v, (p.1, v) ∈ l ∧ p.1 = k ∧ p.2 = f v) := by
  induction l with
  | nil => simp [aupdate] at h
  | cons q rest ih =>
      obtain ⟨k2, v2⟩ := q
      unfold aupdate at h
      by_cases hk : k2 = k
      · rw [if_pos hk] at h
        rcases List.mem_cons.mp h with h1 | h1
        · subst h1
          exact Or.inr ⟨v2, List.mem_cons_self _ _, hk, rfl⟩
        · rcases ih h1 with ⟨hm, hne⟩ | ⟨v, hm, hke, hv⟩
          · exact Or.inl ⟨List.mem_cons_of_mem _ hm, hne⟩
          · exact Or.inr ⟨v, List.mem_cons_of_mem _ hm, hke, hv⟩
      · rw [if_neg hk] at h
        rcases List.mem_cons.mp h with h1 | h1
        · subst h1
          exact Or.inl ⟨List.mem_cons_self _ _, hk⟩
        · rcases ih h1 with ⟨hm, hne⟩ | ⟨v, hm, hke, hv⟩
          · exact Or.inl ⟨List.mem_cons_of_mem _ hm, hne⟩
          · exact Or.inr ⟨v, List.mem_cons_of_mem _ hm, hke, hv⟩

lemma alookup_aupdate_self {β : Type} (k : ℕ) (f : β → β) (l : List (ℕ × β)) :
    alookup k (aupdate k f l) = (alookup k l).map f := by
  induction l with
  | nil => rfl
  | cons q rest ih =>
      obtain ⟨k2, v2⟩ := q
      by_cases hk : k2 = k <;> simp [aupdate, alookup, hk, ih]

lemma alookup_isSome_of_mem {β : Type} {k : ℕ} {v : β} {l : List (ℕ × β)}
    (h : (k, v) ∈ l) : (alookup k l).isSome := by
  induction l with
  | nil => simp at h
  | cons q rest ih =>
      obtain ⟨k2, v2⟩ := q
      unfold alookup
      by_cases hk : k2 = k
      · rw [if_pos hk]; rfl
      · rw [if_neg hk]
        rcases List.mem_cons.mp h with h1 | h1
        · exact absurd (congrArg Prod.fst h1).symm hk
        · exact ih h1

/-! ### The exclusivity invariant for C1

`Link` couples every zone in the `watering` state to the active-zone
pointer (except under a permanent shutdown, where a cycle-end can strand
the state field while the valve is forced off); `Uniq` states that all
watering entries carry the same key.  Together with key uniqueness these
bound the watering count by one, and they are preserved by every
operation. -/

/-- Every watering zone is the active zone (or shutdown was requested). -/
def Link (zones : List (ℕ × ZoneData)) (active : Option ℕ) (sd : Bool) : Prop :=
  ∀ p ∈ zones, p.2.state = ZState.watering → active = some p.1 ∨ sd = true

/-- As `Link`, but ignoring one distinguished zone id. -/
def LinkExcept (zid : ℕ) (zones : List (ℕ × ZoneData)) (active : Option ℕ)
    (sd : Bool) : Prop :=
  ∀ p ∈ zones, p.2.state = ZState.watering → p.1 ≠ zid →
    active = some p.1 ∨ sd = true

/-- All watering entries share one key. -/
def Uniq (zones : List (ℕ × ZoneData)) : Prop :=
  ∀ p ∈ zones, ∀ q ∈ zones, p.2.state = ZState.watering →
    q.2.state = ZState.watering → p.1 = q.1

/-- The inductive invariant of the zone controller. -/
def Inv (s : SysState) : Prop :=
  (s.zones.map Prod.fst).Nodup ∧
  Link s.zones s.active_zone s.shutdown_requested ∧
  Uniq s.zones

lemma link_weaken {zid : ℕ} {zones active sd} (h : Link zones active sd) :
    LinkExcept zid zones active sd :=
  fun p hp hw _ => h p hp hw

lemma link_no_watering {zones} (h : Link zones none false) :
    ∀ p ∈ zones, p.2.state ≠ ZState.watering := by
  intro p hp hw
  rcases h p hp hw with h1 | h1
  · exact Option.noConfusion h1
  · exact Bool.noConfusion h1

/-- Updating one zone to a non-watering state preserves the invariant parts,
for any active pointer that still covers the untouched watering zones. -/
lemma inv_aupdate_nonwatering {zones : List (ℕ × ZoneData)} {active sd}
    (zid : ℕ) (f : ZoneData → ZoneData)
    (hf : ∀ d, (f d).state ≠ ZState.watering)
    (hn : (zones.map Prod.fst).Nodup)
    (hl : LinkExcept zid zones active sd)
    (hu : Uniq zones) :
    ((aupdate zid f zones).map Prod.fst).Nodup ∧
    Link (aupdate zid f zones) active sd ∧
    Uniq (aupdate zid f zones) := by
  refine ⟨by rw [aupdate_keys]; exact hn, ?_, ?_⟩
  · intro p hp hw
    rcases mem_aupdate hp with ⟨hm, hne⟩ | ⟨v, hm, hke, hv⟩
    · exact hl p hm hw hne
    · exact absurd hw (by rw [hv]; exact hf v)
  · intro p hp q hq hwp hwq
    rcases mem_aupdate hp with ⟨hmp, _⟩ | ⟨v, _, _, hv⟩
    · rcases mem_aupdate hq with ⟨hmq, _⟩ | ⟨w, _, _, hw2⟩
      · exact hu p hmp q hmq hwp hwq
      · exact absurd hwq (by rw [hw2]; exact hf w)
    · exact absurd hwp (by rw [hv]; exact hf v)

/-- Updating one zone without touching its state preserves the invariant. -/
lemma inv_aupdate_same_state {zones : List (ℕ × ZoneData)} {active sd}
    (zid : ℕ) (f : ZoneData → ZoneData)
    (hf : ∀ d, (f d).state = d.state)
    (hn : (zones.map Prod.fst).Nodup)
    (hl : Link zones active sd)
    (hu : Uniq zones) :
    ((aupdate zid f zones).map Prod.fst).Nodup ∧
    Link (aupdate zid f zones) active sd ∧
    Uniq (aupdate zid f zones) := by
  have horig : ∀ p ∈ aupdate zid f zones, p.2.state = ZState.watering →
      ∃ q ∈ zones, q.1 = p.1 ∧ q.2.state = ZState.watering := by
    intro p hp hw
    rcases mem_aupdate hp with ⟨hm, _⟩ | ⟨v, hm, _, hv⟩
    · exact ⟨p, hm, rfl, hw⟩
    · refine ⟨(p.1, v), hm, rfl, ?_⟩
      rw [hv, hf v] at hw
      exact hw
  refine ⟨by rw [aupdate_keys]; exact hn, ?_, ?_⟩
  · intro p hp hw
    obtain ⟨q, hq, hqe, hqw⟩ := horig p hp hw
    rw [← hqe]
    exact hl q hq hqw
  · intro p hp q hq hwp hwq
    obtain ⟨p2, hp2, hpe, hpw⟩ := horig p hp hwp
    obtain ⟨q2, hq2, hqe, hqw⟩ := horig q hq hwq
    rw [← hpe, ← hqe]
    exact hu p2 hp2 q2 hq2 hpw hqw

/-- The invariant bounds the number of watering zones by one. -/
lemma countWatering_le_one_of_inv {s : SysState} (h : Inv s) :
    countWatering s ≤ 1 := by
  obtain ⟨hn, _, hu⟩ := h
  unfold countWatering
  rcases hF : s.zones.filter (fun p => decide (p.2.state = ZState.watering)) with
    _ | ⟨p, F1⟩
  · rw [hF]; simp
  rcases hF1 : F1 with _ | ⟨q, F2⟩
  · rw [hF, hF1]; simp
  exfalso
  have hsub : List.Sublist (p :: q :: F2) s.zones := by
    rw [← hF1, ← hF]
    exact List.filter_sublist s.zones
  have hkeys : ((p :: q :: F2).map Prod.fst).Nodup :=
    hn.sublist (hsub.map Prod.fst)
  have hmp : p ∈ s.zones ∧ p.2.state = ZState.watering := by
    have : p ∈ s.zones.filter (fun p => decide (p.2.state = ZState.watering)) := by
      rw [hF, hF1]; exact List.mem_cons_self _ _
    have h2 := List.mem_filter.mp this
    exact ⟨h2.1, by simpa using h2.2⟩
  have hmq : q ∈ s.zones ∧ q.2.state = ZState.watering := by
    have : q ∈ s.zones.filter (fun p => decide (p.2.state = ZState.watering)) := by
      rw [hF, hF1]
      exact List.mem_cons_of_mem _ (List.mem_cons_self _ _)
    have h2 := List.mem_filter.mp this
    exact ⟨h2.1, by simpa using h2.2⟩
  have heq : p.1 = q.1 := hu p hmp.1 q hmq.1 hmp.2 hmq.2
  have : p.1 ∉ (q :: F2).map Prod.fst := by
    have := List.nodup_cons.mp hkeys
    exact this.1
  exact this (by rw [heq]; exact List.mem_cons_self _ _)

/-! ### Operation characterizations and invariant preservation -/

lemma turn_off_fields (s : SysState) (z : ℕ) (ok : Bool) :
    (turn_off_zone s z ok).1.zones = s.zones ∧
    (turn_off_zone s z ok).1.shutdown_requested = s.shutdown_requested ∧
    (turn_off_zone s z ok).1.zone_queue = s.zone_queue ∧
    (turn_off_zone s z ok).1.soaking_zones = s.soaking_zones := by
  unfold turn_off_zone
  by_cases h1 : (alookup z s.zones).isNone
  · rw [if_pos h1]
    exact ⟨rfl, rfl, rfl, rfl⟩
  · rw [if_neg h1]
    cases ok
    · simp only [Bool.false_eq_true, if_false]
      by_cases ha : s.active_zone = some z
      · rw [if_pos ha]
        exact ⟨rfl, rfl, rfl, rfl⟩
      · rw [if_neg ha]
        exact ⟨rfl, rfl, rfl, rfl⟩
    · simp only [if_true]
      by_cases ha : s.active_zone = some z
      · rw [if_pos ha]
        by_cases hs : ({ s with active_zone := none } : SysState).soaking_zones = []
        · rw [if_pos hs]
          exact ⟨rfl, rfl, rfl, rfl⟩
        · rw [if_neg hs]
          exact ⟨rfl, rfl, rfl, rfl⟩
      · rw [if_neg ha]
        exact ⟨rfl, rfl, rfl, rfl⟩

lemma turn_off_active_of_ne {s : SysState} {z : ℕ} (ok : Bool)
    (h : s.active_zone ≠ some z) :
    (turn_off_zone s z ok).1.active_zone = s.active_zone := by
  unfold turn_off_zone
  by_cases h1 : (alookup z s.zones).isNone
  · rw [if_pos h1]
  · rw [if_neg h1]
    cases ok
    · simp only [Bool.false_eq_true, if_false]
      rw [if_neg h]
    · simp only [if_true]
      rw [if_neg h]

lemma turn_off_active_options (s : SysState) (z : ℕ) (ok : Bool) :
    (turn_off_zone s z ok).1.active_zone = s.active_zone ∨
    (turn_off_zone s z ok).1.active_zone = none := by
  by_cases h : s.active_zone = some z
  · unfold turn_off_zone
    by_cases h1 : (alookup z s.zones).isNone
    · rw [if_pos h1]
      exact Or.inl rfl
    · rw [if_neg h1]
      cases ok
      · simp only [Bool.false_eq_true, if_false]
        rw [if_pos h]
        exact Or.inr rfl
      · simp only [if_true]
        rw [if_pos h]
        by_cases hs : ({ s with active_zone := none } : SysState).soaking_zones = []
        · rw [if_pos hs]
          exact Or.inr rfl
        · rw [if_neg hs]
          exact Or.inr rfl
  · exact Or.inl (turn_off_active_of_ne ok h)

/-- C10.  Calling `turn_off_zone` on the configured active zone clears the
active-zone pointer whether or not the actuator call succeeded, and the
failure branch returns `False`. -/
theorem turn_off_zone_clears_active (s : SysState) (z : ℕ) (ok : Bool)
    (hz : (alookup z s.zones).isSome) (ha : s.active_zone = some z) :
    (turn_off_zone s z ok).1.active_zone = none ∧
    (ok = false → (turn_off_zone s z ok).2 = false) := by
  unfold turn_off_zone
  have hnn : ¬ (alookup z s.zones).isNone = true := by
    simp only [Option.isNone_iff_eq_none]
    exact Option.isSome_iff_ne_none.mp hz
  rw [if_neg hnn]
  cases ok
  · simp only [Bool.false_eq_true, if_false]
    rw [if_pos ha]
    refine ⟨rfl, ?_⟩
    simp
  · simp only [if_true]
    rw [if_pos ha]
    refine ⟨?_, fun h => Bool.noConfusion h⟩
    by_cases hs : ({ s with active_zone := none } : SysState).soaking_zones = []
    · rw [if_pos hs]
    · rw [if_neg hs]

/-- C10 witness: one configured zone, active, with a failing off-command. -/
theorem turn_off_zone_clears_active_witness :
    (alookup 1 [(1, ZoneData.mk ZState.watering 30 50 120 2 1 0 1 (some 10) 0 0)]).isSome ∧
    (turn_off_zone
      (SysState.mk [(1, ZoneData.mk ZState.watering 30 50 120 2 1 0 1 (some 10) 0 0)]
        (some 1) [] [] true false false true true 15 30 0)
      1 false).1.active_zone = none := by
  constructor
  · rfl
  · exact (turn_off_zone_clears_active
      (SysState.mk [(1, ZoneData.mk ZState.watering 30 50 120 2 1 0 1 (some 10) 0 0)]
        (some 1) [] [] true false false true true 15 30 0)
      1 false (by rfl) rfl).1

lemma turn_on_inv {s : SysState} (z : ℕ) (ok : Bool)
    (h : Inv s) (ha : s.active_zone = none) (hsd : s.shutdown_requested = false) :
    Inv (turn_on_zone s z ok).1 := by
  obtain ⟨hn, hl, hu⟩ := h
  have hnw : ∀ p ∈ s.zones, p.2.state ≠ ZState.watering := by
    apply link_no_watering
    rw [← ha, ← hsd]
    exact hl
  unfold turn_on_zone
  by_cases h1 : (alookup z s.zones).isNone
  · rw [if_pos h1]
    exact ⟨hn, hl, hu⟩
  · rw [if_neg h1]
    rw [if_neg (by simp [hsd])]
    cases ok
    · simp only [Bool.false_eq_true, if_false]
      exact inv_aupdate_nonwatering z _ (fun d => by simp) hn (link_weaken hl) hu
    · simp only [if_true]
      refine ⟨?_, ?_, ?_⟩
      · show ((aupdate z _ s.zones).map Prod.fst).Nodup
        rw [aupdate_keys]
        exact hn
      · intro p hp hw
        rcases mem_aupdate hp with ⟨hm, _⟩ | ⟨v, _, hke, _⟩
        · exact absurd hw (hnw p hm)
        · exact Or.inl (by rw [hke])
      · intro p hp q hq hwp hwq
        rcases mem_aupdate hp with ⟨hmp, _⟩ | ⟨v, _, hkp, _⟩
        · exact absurd hwp (hnw p hmp)
        · rcases mem_aupdate hq with ⟨hmq, _⟩ | ⟨w, _, hkq, _⟩
          · exact absurd hwq (hnw q hmq)
          · rw [hkp, hkq]

lemma start_zone_cycle_inv {s : SysState} (z : ℕ) (m rate : ℚ) (ok : Bool)
    (h : Inv s) (ha : s.active_zone = none) (hsd : s.shutdown_requested = false) :
    Inv (start_zone_cycle s z m rate ok) := by
  obtain ⟨hn, hl, hu⟩ := h
  unfold start_zone_cycle
  rw [if_neg (by simp [hsd])]
  by_cases h1 : (alookup z s.zones).isNone
  · rw [if_pos h1]
    split
    · exact ⟨hn, hl, hu⟩
    · exact ⟨hn, hl, hu⟩
  · rw [if_neg h1]
    have hinv1 : Inv { s with zones := aupdate z (fun d =>
        { d with pre_watering_moisture := some m,
                 watering_expected_increase := rate * s.cycle_time }) s.zones } := by
      have h2 := @inv_aupdate_same_state s.zones s.active_zone s.shutdown_requested z
        (fun d => { d with pre_watering_moisture := some m,
                           watering_expected_increase := rate * s.cycle_time })
        (fun d => rfl) hn hl hu
      exact ⟨h2.1, h2.2.1, h2.2.2⟩
    have hinv2 := turn_on_inv (s := { s with zones := aupdate z (fun d =>
        { d with pre_watering_moisture := some m,
                 watering_expected_increase := rate * s.cycle_time }) s.zones })
      z ok hinv1 ha hsd
    obtain ⟨hn2, hl2, hu2⟩ := hinv2
    dsimp only
    split
    · exact ⟨hn2, hl2, hu2⟩
    · split
      · exact ⟨hn2, hl2, hu2⟩
      · exact ⟨hn2, hl2, hu2⟩

lemma calculate_and_start_inv {s : SysState} (z : ℕ) (m rate : ℚ) (ok : Bool)
    (h : Inv s) (ha : s.active_zone = none) (hsd : s.shutdown_requested = false) :
    Inv (calculate_and_start_watering s z m rate ok) := by
  obtain ⟨hn, hl, hu⟩ := h
  unfold calculate_and_start_watering
  rw [if_neg (by simp [hsd])]
  rcases hz : alookup z s.zones with _ | d
  · exact ⟨hn, hl, hu⟩
  · dsimp only
    split
    · refine start_zone_cycle_inv z m rate ok ?_ ha hsd
      have h2 := @inv_aupdate_same_state s.zones s.active_zone s.shutdown_requested z
        (fun d2 => { d2 with
          cycle_count := max 1 (pyInt (calculate_watering_duration m
            d.max_moisture (rate * d.efficiency_factor) s.cycle_time
            (some d.max_watering_time) / s.cycle_time)),
          current_cycle := 1 })
        (fun d2 => rfl) hn hl hu
      exact ⟨h2.1, h2.2.1, h2.2.2⟩
    · split
      · exact ⟨hn, hl, hu⟩
      · exact ⟨hn, hl, hu⟩

lemma check_soaking_inv {s : SysState} (now : ℚ) (h : Inv s) :
    Inv (check_soaking_zones s now) := by
  obtain ⟨hn, hl, hu⟩ := h
  exact ⟨hn, hl, hu⟩

lemma pq_loop_inv : ∀ (envs : List PQIterEnv) (s : SysState),
    Inv s → Inv (pq_loop s envs) := by
  intro envs
  induction envs with
  | nil => intro s h; exact h
  | cons e rest ih =>
      intro s h
      obtain ⟨hn, hl, hu⟩ := h
      unfold pq_loop
      split
      · exact ⟨hn, hl, hu⟩
      · rename_i hcond
        split
        · exact ⟨hn, hl, hu⟩
        · rename_i hsd
          split
          · exact ⟨hn, hl, hu⟩
          · split
            · exact ⟨hn, hl, hu⟩
            · split
              · exact ⟨hn, hl, hu⟩
              · rename_i zone_id q hq
                dsimp only
                have hinv1 : Inv { s with zone_queue := q } := ⟨hn, hl, hu⟩
                have ha : s.active_zone = none := by
                  rcases not_or.mp hcond with ⟨h1, _⟩
                  exact Option.not_isSome_iff_eq_none.mp (by simpa using h1)
                have hsd2 : s.shutdown_requested = false := Bool.not_eq_true _ |>.mp hsd
                split
                · exact ih _ hinv1
                · split
                  · exact ih _ hinv1
                  · split
                    · exact ih _ hinv1
                    · exact calculate_and_start_inv zone_id _ _ _ hinv1 ha hsd2

lemma process_queue_inv {s : SysState} (now : ℚ) (envs : List PQIterEnv)
    (h : Inv s) : Inv (process_queue s now envs) := by
  obtain ⟨hn, hl, hu⟩ := h
  unfold process_queue
  split
  · exact ⟨hn, hl, hu⟩
  · split
    · exact ⟨hn, hl, hu⟩
    · dsimp only
      have h2 : Inv (check_soaking_zones { s with queue_processing_active := true } now) :=
        check_soaking_inv now ⟨hn, hl, hu⟩
      have h3 := pq_loop_inv envs _ h2
      obtain ⟨hn3, hl3, hu3⟩ := h3
      split
      · exact ⟨hn3, hl3, hu3⟩
      · exact ⟨hn3, hl3, hu3⟩

lemma start_soak_inv {s : SysState} (z : ℕ) (read : SensorRead) (now : ℚ)
    (hn : (s.zones.map Prod.fst).Nodup)
    (hl : LinkExcept z s.zones s.active_zone s.shutdown_requested)
    (hu : Uniq s.zones) :
    Inv (start_soak_cycle s z read now) := by
  unfold start_soak_cycle
  split
  · rename_i hsd
    refine ⟨hn, ?_, hu⟩
    intro p hp hw
    exact Or.inr hsd
  · rename_i hsd
    rcases hz : alookup z s.zones with _ | d
    · refine ⟨hn, ?_, hu⟩
      intro p hp hw
      by_cases hpz : p.1 = z
      · exfalso
        have : (alookup p.1 s.zones).isSome := alookup_isSome_of_mem (v := p.2) hp
        rw [hpz, hz] at this
        exact Bool.noConfusion this
      · exact hl p hp hw hpz
    · dsimp only
      have h2 := @inv_aupdate_nonwatering s.zones s.active_zone s.shutdown_requested z
        (fun d2 => { d2 with state := ZState.soaking, current_cycle := d2.current_cycle + 1 })
        (fun d2 => by simp) hn hl hu
      split
      · exact ⟨h2.1, h2.2.1, h2.2.2⟩
      · exact ⟨h2.1, h2.2.1, h2.2.2⟩
      · exact ⟨h2.1, h2.2.1, h2.2.2⟩

lemma handle_cycle_end_inv {s : SysState} (z : ℕ) (ok : Bool) (read : SensorRead)
    (now : ℚ) (h : Inv s) : Inv (handle_cycle_end s z ok read now) := by
  obtain ⟨hn, hl, hu⟩ := h
  obtain ⟨hz1, hsd1, hq1, hs1⟩ := turn_off_fields s z ok
  unfold handle_cycle_end
  split
  · rename_i hsd
    refine ⟨?_, ?_, ?_⟩
    · rw [hz1]; exact hn
    · intro p hp hw
      right
      rw [hsd1]; exact hsd
    · rw [hz1]; exact hu
  · rename_i hsd
    have hsd2 : s.shutdown_requested = false := Bool.not_eq_true _ |>.mp hsd
    rcases hzl : alookup z s.zones with _ | d
    · dsimp only
      split
      · exact ⟨hn, hl, hu⟩
      · exact ⟨hn, hl, hu⟩
    · dsimp only
      have hle : LinkExcept z (turn_off_zone s z ok).1.zones
          (turn_off_zone s z ok).1.active_zone
          (turn_off_zone s z ok).1.shutdown_requested := by
        rw [hz1, hsd1]
        intro p hp hw hpz
        rcases hl p hp hw with h1 | h1
        · left
          rw [turn_off_active_of_ne ok (by rw [h1]; intro hc; exact hpz (by
              injection hc))]
          exact h1
        · exact Or.inr h1
      have hnod : ((turn_off_zone s z ok).1.zones.map Prod.fst).Nodup := by
        rw [hz1]; exact hn
      have huq : Uniq (turn_off_zone s z ok).1.zones := by
        rw [hz1]; exact hu
      split
      · have h2 := @inv_aupdate_nonwatering (turn_off_zone s z ok).1.zones
          (turn_off_zone s z ok).1.active_zone
          (turn_off_zone s z ok).1.shutdown_requested z
          (fun d2 => { d2 with state := ZState.measuring })
          (fun d2 => by simp) hnod hle huq
        split
        · exact ⟨h2.1, h2.2.1, h2.2.2⟩
        · split
          · exact ⟨h2.1, h2.2.1, h2.2.2⟩
          · exact ⟨h2.1, h2.2.1, h2.2.2⟩
      · exact start_soak_inv z read now hnod hle huq

lemma handle_soak_end_inv {s : SysState} (z : ℕ) (h : Inv s) :
    Inv (handle_soak_end s z) := by
  obtain ⟨hn, hl, hu⟩ := h
  unfold handle_soak_end
  split
  · exact ⟨hn, hl, hu⟩
  · dsimp only
    split
    · exact ⟨hn, hl, hu⟩
    · exact ⟨hn, hl, hu⟩

lemma final_measurement_update_state (expected moisture_increase hours : ℚ)
    (d2 : ZoneData) :
    (final_measurement_update expected moisture_increase hours d2).state =
      ZState.idle := by
  unfold final_measurement_update
  rfl

lemma final_measurement_update_deficit (expected moisture_increase hours : ℚ)
    (d2 : ZoneData) :
    (final_measurement_update expected moisture_increase hours d2).moisture_deficit =
      post_watering_deficit_update d2.moisture_deficit moisture_increase := by
  unfold final_measurement_update
  dsimp only
  split
  · split
    · rfl
    · rfl
  · split
    · rfl
    · rfl

lemma handle_final_measurement_inv {s : SysState} (z : ℕ) (read : SensorRead)
    (h : Inv s) : Inv (handle_final_measurement s z read) := by
  obtain ⟨hn, hl, hu⟩ := h
  unfold handle_final_measurement
  rcases hz : alookup z s.zones with _ | d
  · dsimp only
    split
    · exact ⟨hn, hl, hu⟩
    · exact ⟨hn, hl, hu⟩
  · rcases read with _ | _ | m
    · dsimp only
      have h2 := @inv_aupdate_nonwatering s.zones s.active_zone s.shutdown_requested z
        (final_measurement_update d.watering_expected_increase
          (d.pre_watering_moisture.getD 0 - d.pre_watering_moisture.getD
            (d.pre_watering_moisture.getD 0))
          ((d.cycle_count : ℚ) * s.cycle_time / 60))
        (fun d2 => by rw [final_measurement_update_state]; simp)
        hn (link_weaken hl) hu
      split
      · exact ⟨h2.1, h2.2.1, h2.2.2⟩
      · exact ⟨h2.1, h2.2.1, h2.2.2⟩
    · dsimp only
      have h2 := @inv_aupdate_nonwatering s.zones s.active_zone s.shutdown_requested z
        (fun d2 => { d2 with state := ZState.idle })
        (fun d2 => by simp)
        hn (link_weaken hl) hu
      split
      · exact ⟨h2.1, h2.2.1, h2.2.2⟩
      · exact ⟨h2.1, h2.2.1, h2.2.2⟩
    · dsimp only
      have h2 := @inv_aupdate_nonwatering s.zones s.active_zone s.shutdown_requested z
        (final_measurement_update d.watering_expected_increase
          (m - d.pre_watering_moisture.getD m)
          ((d.cycle_count : ℚ) * s.cycle_time / 60))
        (fun d2 => by rw [final_measurement_update_state]; simp)
        hn (link_weaken hl) hu
      split
      · exact ⟨h2.1, h2.2.1, h2.2.2⟩
      · exact ⟨h2.1, h2.2.1, h2.2.2⟩

lemma evaluate_zone_inv {s : SysState} (z : ℕ) (moisture temperature : Option ℚ)
    (in_schedule rain freezing : Bool) (h : Inv s) :
    Inv (evaluate_zone s z moisture temperature in_schedule rain freezing) := by
  obtain ⟨hn, hl, hu⟩ := h
  unfold evaluate_zone
  repeat' split
  all_goals exact ⟨hn, hl, hu⟩

lemma map_fst_preserving {g : ℕ × ZoneData → ℕ × ZoneData}
    (hg : ∀ p, (g p).1 = p.1) (l : List (ℕ × ZoneData)) :
    (l.map g).map Prod.fst = l.map Prod.fst := by
  induction l with
  | nil => rfl
  | cons p rest ih => simp [hg, ih]

lemma watering_of_soak_idle_map {soak : List (ℕ × SoakData)}
    {l : List (ℕ × ZoneData)} {p : ℕ × ZoneData}
    (hp : p ∈ l.map (fun p : ℕ × ZoneData =>
      if (alookup p.1 soak).isSome then (p.1, { p.2 with state := ZState.idle })
      else p))
    (hw : p.2.state = ZState.watering) :
    p ∈ l := by
  rcases List.mem_map.mp hp with ⟨q, hq, hgq⟩
  by_cases hc : (alookup q.1 soak).isSome
  · exfalso
    rw [if_pos hc] at hgq
    rw [← hgq] at hw
    exact ZState.noConfusion hw
  · rw [if_neg hc] at hgq
    rw [← hgq]
    exact hq

lemma stop_all_inv {s : SysState} (ok : Bool) (h : Inv s) :
    Inv (stop_all_watering s ok) := by
  obtain ⟨hn, hl, hu⟩ := h
  unfold stop_all_watering
  dsimp only
  have horig : ∀ p : ℕ × ZoneData,
      p ∈ (match s.active_zone with
           | some zone_id =>
               match alookup zone_id s.zones with
               | some _ =>
                   aupdate zone_id
                     (fun d : ZoneData => { d with state := ZState.idle }) s.zones
               | none => s.zones
           | none => s.zones) →
      p.2.state = ZState.watering →
      p ∈ s.zones ∧ (s.active_zone = some p.1 → False) := by
    intro p hp hw
    rcases hact : s.active_zone with _ | z
    · rw [hact] at hp
      dsimp only at hp
      exact ⟨hp, fun hc => Option.noConfusion hc⟩
    · rw [hact] at hp
      dsimp only at hp
      rcases hz : alookup z s.zones with _ | d
      · rw [hz] at hp
        dsimp only at hp
        refine ⟨hp, ?_⟩
        intro hc
        have hpz : z = p.1 := by injection hc
        have hsome : (alookup p.1 s.zones).isSome :=
          alookup_isSome_of_mem (v := p.2) hp
        rw [← hpz] at hsome
        rw [hz] at hsome
        exact Bool.noConfusion hsome
      · rw [hz] at hp
        dsimp only at hp
        rcases mem_aupdate hp with ⟨hm, hne⟩ | ⟨v, hm, hke, hv⟩
        · refine ⟨hm, ?_⟩
          intro hc
          have hpz : z = p.1 := by injection hc
          exact hne hpz.symm
        · exfalso
          rw [hv] at hw
          exact ZState.noConfusion hw
  refine ⟨?_, ?_, ?_⟩
  · rw [map_fst_preserving (fun p => by split <;> rfl)]
    rcases hact : s.active_zone with _ | z
    · try rw [hact]
      try dsimp only
      exact hn
    · try rw [hact]
      try dsimp only
      rcases hz : alookup z s.zones with _ | d
      · try rw [hz]
        try dsimp only
        exact hn
      · try rw [hz]
        try dsimp only
        rw [aupdate_keys]
        exact hn
  · intro p hp hw
    have hp2 := watering_of_soak_idle_map hp hw
    obtain ⟨hmem, hna⟩ := horig p hp2 hw
    rcases hl p hmem hw with h1 | h1
    · exact absurd h1 (fun hc => hna hc)
    · exact Or.inr h1
  · intro p hp q hq hwp hwq
    have hp2 := watering_of_soak_idle_map hp hwp
    have hq2 := watering_of_soak_idle_map hq hwq
    exact hu p (horig p hp2 hwp).1 q (horig q hq2 hwq).1 hwp hwq

lemma init_inv {s : SysState} (h : InitState s) : Inv s := by
  obtain ⟨hn, hidle, _, _, _, _⟩ := h
  refine ⟨hn, ?_, ?_⟩
  · intro p hp hw
    rw [hidle p hp] at hw
    exact absurd hw (by simp)
  · intro p hp q hq hwp _
    rw [hidle p hp] at hwp
    exact absurd hwp (by simp)

lemma reachable_inv {s : SysState} (h : Reachable s) : Inv s := by
  induction h with
  | init s h => exact init_inv h
  | step s s2 h hs ih =>
      cases hs with
      | evaluate z m t isch r f => exact evaluate_zone_inv z m t isch r f ih
      | processQueue now envs => exact process_queue_inv now envs ih
      | cycleEnd z ok read now => exact handle_cycle_end_inv z ok read now ih
      | soakEnd z => exact handle_soak_end_inv z ih
      | finalMeasurement z read => exact handle_final_measurement_inv z read ih
      | stopAll ok => exact stop_all_inv ok ih
      | emergencyShutdown ok =>
          apply stop_all_inv
          obtain ⟨hn, _, hu⟩ := ih
          exact ⟨hn, fun p _ _ => Or.inr rfl, hu⟩

/-- C1.  In every state reachable from a freshly set-up controller by any
interleaving of zone evaluation, queue processing, cycle-end, soak-end,
final-measurement and stop operations, at most one zone record is in the
`watering` state system-wide: `process_queue` only hands a zone to the
processor when `active_zone` is `None`, and `turn_on_zone` marks the zone
watering and points `active_zone` at it in the same step. -/
theorem watering_exclusive (s : SysState) (h : Reachable s) :
    countWatering s ≤ 1 :=
  countWatering_le_one_of_inv (reachable_inv h)

/-- C1 witness: a two-zone initial configuration, after one queue-processing
step, has at most one watering zone. -/
theorem watering_exclusive_witness :
    countWatering (process_queue
      (SysState.mk
        [(1, ZoneData.mk ZState.idle 30 50 120 0 0 0 1 none 0 0),
         (2, ZoneData.mk ZState.idle 35 55 120 0 0 0 1 none 0 0)]
        none [] [] true false false false false 15 30 0)
      0 []) ≤ 1 :=
  watering_exclusive _
    (Reachable.step _ _
      (Reachable.init _
        ⟨by decide, by decide, rfl, rfl, rfl, rfl⟩)
      (Step.processQueue _ 0 []))

/-! ### C3: the deficit update performed at the final measurement -/

lemma handle_final_measurement_zones (s : SysState) (z : ℕ) (d : ZoneData)
    (m p : ℚ) (hd : alookup z s.zones = some d)
    (hp : d.pre_watering_moisture = some p) :
    (handle_final_measurement s z (SensorRead.value m)).zones =
      aupdate z (final_measurement_update d.watering_expected_increase (m - p)
        ((d.cycle_count : ℚ) * s.cycle_time / 60)) s.zones := by
  unfold handle_final_measurement
  rw [hd]
  dsimp only
  rw [hp]
  dsimp only [Option.getD_some]
  split
  · rfl
  · rfl

/-- C3 counterexample.  Zone 1 starts the final measurement with
pre-watering moisture 10%, target (`max_moisture`) 50% and deficit 100mm;
the final reading is 60% ≥ target.  The claim says the deficit becomes
exactly 0, but the source subtracts the mm equivalent of the measured
increase: `max(0, 100 - 50) = 50 ≠ 0`. -/
theorem final_measurement_deficit_counterexample :
    (10:ℚ) < 50 ∧ (50:ℚ) ≤ 60 ∧
    Option.map ZoneData.moisture_deficit
      (alookup 1 (handle_final_measurement
        (SysState.mk [(1, ZoneData.mk ZState.measuring 30 50 120 2 2 100 1 (some 10) 0 0)]
          none [] [] true false false false false 15 30 0)
        1 (SensorRead.value 60)).zones) = some 50 ∧
    Option.map ZoneData.moisture_deficit
      (alookup 1 (handle_final_measurement
        (SysState.mk [(1, ZoneData.mk ZState.measuring 30 50 120 2 2 100 1 (some 10) 0 0)]
          none [] [] true false false false false 15 30 0)
        1 (SensorRead.value 60)).zones) ≠ some 0 := by
  have hz := handle_final_measurement_zones
    (SysState.mk [(1, ZoneData.mk ZState.measuring 30 50 120 2 2 100 1 (some 10) 0 0)]
      none [] [] true false false false false 15 30 0)
    1 (ZoneData.mk ZState.measuring 30 50 120 2 2 100 1 (some 10) 0 0)
    60 10 rfl rfl
  have hval : Option.map ZoneData.moisture_deficit
      (alookup 1 (handle_final_measurement
        (SysState.mk [(1, ZoneData.mk ZState.measuring 30 50 120 2 2 100 1 (some 10) 0 0)]
          none [] [] true false false false false 15 30 0)
        1 (SensorRead.value 60)).zones) = some 50 := by
    rw [hz, alookup_aupdate_self]
    show Option.map ZoneData.moisture_deficit
      (Option.map _ (alookup 1
        [(1, ZoneData.mk ZState.measuring 30 50 120 2 2 100 1 (some 10) 0 0)])) = some 50
    rw [show alookup 1
        [(1, ZoneData.mk ZState.measuring 30 50 120 2 2 100 1 (some 10) 0 0)] =
        some (ZoneData.mk ZState.measuring 30 50 120 2 2 100 1 (some 10) 0 0) from rfl]
    dsimp only [Option.map_some']
    rw [final_measurement_update_deficit]
    unfold post_watering_deficit_update
    norm_num
  refine ⟨by norm_num, by norm_num, hval, ?_⟩
  rw [hval]
  intro hc
  have : (50:ℚ) = 0 := by injection hc
  norm_num at this

/-- C3 as amended.  On the final measurement with a parsed reading `m` and a
recorded pre-watering moisture `p`, the zone's deficit becomes
`max(0, old - (m - p) * 1.0)` when the measured increase `m - p` is
positive, and is left unchanged otherwise; there is no reset-to-zero on
reaching the target moisture. -/
theorem final_measurement_deficit_update (s : SysState) (z : ℕ) (d : ZoneData)
    (m p : ℚ) (hd : alookup z s.zones = some d)
    (hp : d.pre_watering_moisture = some p) :
    Option.map ZoneData.moisture_deficit
        (alookup z (handle_final_measurement s z (SensorRead.value m)).zones) =
      some (if 0 < m - p then max 0 (d.moisture_deficit - (m - p) * 1)
            else d.moisture_deficit) := by
  rw [handle_final_measurement_zones s z d m p hd hp]
  rw [alookup_aupdate_self]
  rw [hd]
  dsimp only [Option.map_some']
  rw [final_measurement_update_deficit]
  rfl

/-- C3 witness: the counterexample state evaluated through the amended
formula gives the 50mm deficit. -/
theorem final_measurement_deficit_update_witness :
    alookup 1 [(1, ZoneData.mk ZState.measuring 30 50 120 2 2 100 1 (some 10) 0 0)] =
      some (ZoneData.mk ZState.measuring 30 50 120 2 2 100 1 (some 10) 0 0) ∧
    Option.map ZoneData.moisture_deficit
        (alookup 1 (handle_final_measurement
          (SysState.mk [(1, ZoneData.mk ZState.measuring 30 50 120 2 2 100 1 (some 10) 0 0)]
            none [] [] true false false false false 15 30 0)
          1 (SensorRead.value 60)).zones) =
      some (if (0:ℚ) < 60 - 10 then max 0 (100 - (60 - 10) * 1) else 100) := by
  constructor
  · rfl
  · exact final_measurement_deficit_update
      (SysState.mk [(1, ZoneData.mk ZState.measuring 30 50 120 2 2 100 1 (some 10) 0 0)]
        none [] [] true false false false false 15 30 0)
      1 (ZoneData.mk ZState.measuring 30 50 120 2 2 100 1 (some 10) 0 0)
      60 10 rfl rfl

/-! ### C8: soak-completed zones take priority in the queue -/

lemma insert_front_rev_eq (ready q : List ℕ) :
    insert_front_rev ready q = ready ++ q := by
  induction ready with
  | nil => rfl
  | cons a t ih =>
      unfold insert_front_rev at ih ⊢
      rw [List.reverse_cons, List.foldl_append, ih]
      rfl

lemma collect_ready_eq_filter (zs : List (ℕ × ZoneData)) (now : ℚ) :
    ∀ soak : List (ℕ × SoakData),
      (collect_ready zs now soak).1 =
        (soak.filter (fun p =>
          (alookup p.1 zs).isSome && decide (p.2.ready_at ≤ now))).map Prod.fst := by
  intro soak
  induction soak with
  | nil => rfl
  | cons p rest ih =>
      obtain ⟨z, dta⟩ := p
      unfold collect_ready
      dsimp only
      by_cases h1 : (alookup z zs).isNone
      · rw [if_pos h1]
        have h1b : (alookup z zs).isSome = false := by
          rcases h : alookup z zs with _ | v
          · rfl
          · rw [h] at h1; exact absurd h1 (by simp)
        simp [List.filter_cons, h1b, ih]
      · rw [if_neg h1]
        have h1b : (alookup z zs).isSome = true := by
          rcases h : alookup z zs with _ | v
          · rw [h] at h1; exact absurd rfl h1
          · rfl
        by_cases h2 : dta.ready_at ≤ now
        · rw [if_pos h2]
          simp [List.filter_cons, h1b, h2, ih]
        · rw [if_neg h2]
          simp [List.filter_cons, h1b, h2, ih]

lemma turn_on_zone_queue (s : SysState) (z : ℕ) (ok : Bool) :
    (turn_on_zone s z ok).1.zone_queue = s.zone_queue := by
  unfold turn_on_zone
  split
  · rfl
  · split
    · rfl
    · split
      · rfl
      · rfl

lemma start_zone_cycle_queue (s : SysState) (z : ℕ) (m rate : ℚ) (ok : Bool) :
    (start_zone_cycle s z m rate ok).zone_queue = s.zone_queue := by
  unfold start_zone_cycle
  split
  · split
    · rfl
    · rfl
  · split
    · split
      · rfl
      · rfl
    · dsimp only
      split
      · rw [turn_on_zone_queue]
      · split
        · rw [turn_on_zone_queue]
        · rw [turn_on_zone_queue]

lemma calculate_and_start_queue (s : SysState) (z : ℕ) (m rate : ℚ) (ok : Bool) :
    (calculate_and_start_watering s z m rate ok).zone_queue = s.zone_queue := by
  unfold calculate_and_start_watering
  split
  · rfl
  · split
    · rfl
    · dsimp only
      split
      · rw [start_zone_cycle_queue]
      · split
        · rfl
        · rfl

lemma pq_loop_queue_suffix : ∀ (envs : List PQIterEnv) (s : SysState),
    List.IsSuffix (pq_loop s envs).zone_queue s.zone_queue := by
  intro envs
  induction envs with
  | nil => intro s; exact List.suffix_refl _
  | cons e rest ih =>
      intro s
      unfold pq_loop
      split
      · exact List.suffix_refl _
      · split
        · exact List.nil_suffix
        · split
          · exact List.nil_suffix
          · split
            · exact List.nil_suffix
            · split
              · exact List.suffix_refl _
              · rename_i zone_id q hq
                dsimp only
                have htail : List.IsSuffix q s.zone_queue := by
                  rw [hq]
                  exact ⟨[zone_id], rfl⟩
                split
                · exact ((ih _).trans htail)
                · split
                  · exact ((ih _).trans htail)
                  · split
                    · exact ((ih _).trans htail)
                    · rw [calculate_and_start_queue]
                      exact htail

/-- The ids of the soaking zones whose deadline has passed (zones deleted
from the controller excluded), in their original dict order. -/
def soak_ready_ids (s : SysState) (now : ℚ) : List ℕ :=
  (s.soaking_zones.filter (fun p =>
    (alookup p.1 s.zones).isSome && decide (p.2.ready_at ≤ now))).map Prod.fst

lemma check_soaking_zones_queue (s : SysState) (now : ℚ) :
    (check_soaking_zones s now).zone_queue = soak_ready_ids s now ++ s.zone_queue := by
  unfold check_soaking_zones
  dsimp only
  rw [insert_front_rev_eq, collect_ready_eq_filter]
  rfl

lemma handle_soak_end_prepend (s : SysState) (zone : ℕ) (d : ZoneData)
    (hsd : s.shutdown_requested = false) (hz : alookup zone s.zones = some d) :
    (handle_soak_end s zone).zone_queue = zone :: s.zone_queue := by
  have h1 : ¬ (s.shutdown_requested = true) := by simp [hsd]
  unfold handle_soak_end
  rw [if_neg h1]
  dsimp only
  rw [show alookup zone
      ({ s with soaking_zones := aremove zone s.soaking_zones } : SysState).zones =
      some d from hz]

/-- C8.  On the single idealized timeline (in the running code the test
`data['ready_at'] <= now` in `QueueManager._check_soaking_zones` compares a
`datetime` against the event-loop float clock and raises `TypeError`, so no
pass with a surviving soak entry completes), the intended priority ordering
holds: `_check_soaking_zones` moves exactly the soak-completed zones to the
front of the queue in their original relative order ahead of all previously
queued zones; `handle_soak_end` reinserts a still-existing zone at queue
position 0; and a full `process_queue` pass only ever pops from the front,
so its final queue is a suffix of soak-ready ++ old-queue: every
soak-completed zone is dequeued before any zone that was already waiting,
and FIFO order is preserved among the waiting zones. -/
theorem soak_priority_ordering (s : SysState) (now : ℚ) (envs : List PQIterEnv)
    (zone : ℕ) (d : ZoneData)
    (hsd : s.shutdown_requested = false)
    (hqpa : s.queue_processing_active = false)
    (hz : alookup zone s.zones = some d) :
    (check_soaking_zones s now).zone_queue = soak_ready_ids s now ++ s.zone_queue ∧
    (handle_soak_end s zone).zone_queue = zone :: s.zone_queue ∧
    List.IsSuffix (process_queue s now envs).zone_queue
      (soak_ready_ids s now ++ s.zone_queue) := by
  refine ⟨check_soaking_zones_queue s now, handle_soak_end_prepend s zone d hsd hz, ?_⟩
  have h1 : ¬ (s.shutdown_requested = true) := by simp [hsd]
  have h2 : ¬ (s.queue_processing_active = true) := by simp [hqpa]
  have hq2 : (check_soaking_zones
      ({ s with queue_processing_active := true } : SysState) now).zone_queue =
      soak_ready_ids s now ++ s.zone_queue := by
    unfold check_soaking_zones
    dsimp only
    rw [insert_front_rev_eq, collect_ready_eq_filter]
    rfl
  have hsfx := pq_loop_queue_suffix envs
    (check_soaking_zones ({ s with queue_processing_active := true } : SysState) now)
  rw [hq2] at hsfx
  unfold process_queue
  rw [if_neg h1, if_neg h2]
  dsimp only
  split
  · exact hsfx
  · exact hsfx

/-- Concrete state for evaluating the soak-priority theorem: zone 2 is
soaking with its deadline already past while zone 1 waits in the queue. -/
def c8_zone1 : ZoneData := ZoneData.mk ZState.idle 30 50 120 1 1 20 1 none 0 0

/-- The witness system state for the soak-priority theorem. -/
def c8_state : SysState := SysState.mk
  [(1, c8_zone1), (2, ZoneData.mk ZState.soaking 30 50 120 2 1 30 1 (some 15) 0 0)]
  none [(2, SoakData.mk 5 20)] [1] true false false false false 15 30 0

/-- C8 witness: every hypothesis of `soak_priority_ordering` holds for
`c8_state` at time 10, so the conclusions follow there. -/
theorem soak_priority_ordering_witness :
    c8_state.shutdown_requested = false ∧
    c8_state.queue_processing_active = false ∧
    alookup 1 c8_state.zones = some c8_zone1 ∧
    ((check_soaking_zones c8_state 10).zone_queue =
        soak_ready_ids c8_state 10 ++ c8_state.zone_queue ∧
      (handle_soak_end c8_state 1).zone_queue = 1 :: c8_state.zone_queue ∧
      List.IsSuffix (process_queue c8_state 10 []).zone_queue
        (soak_ready_ids c8_state 10 ++ c8_state.zone_queue)) :=
  ⟨rfl, rfl, rfl, soak_priority_ordering c8_state 10 [] 1 c8_zone1 rfl rfl rfl⟩

end SmartSprinklers
